import Mathlib

/-!
The tntnet serving core: configuration store and parser, `Tntnet::init`,
`Tntnet::run`, `SslStream`.

A shallow embedding of

* `framework/common/tntconfig.cpp`  (`Tntconfig`, the ordered configuration store;
  `ConfigParser::parse` and `TntconfigParser::parse`),
* `framework/runtime/tntnet.cpp`    (`configureDispatcher`, `Tntnet::init`, `Tntnet::run`,
  `Tntnet::timerTask`, `Tntnet::shutdown`),
* `framework/runtime/ssl.cpp`       (`SslStream::SslRead`, `SslStream::SslWrite`),

followed by the properties established about them.

Conventions.  A C++ function that can throw returns, next to the state it has
built so far, an `Option String`: `none` is a normal return, `some msg` is the
exception that left the function.  Side effects made before the `throw`
stay in the returned state, as they do in the C++ object.
-/

namespace Tnt

/-! ## Tntconfig (tntconfig.cpp) -/

/-- The `config_entry_type` of the store: a key and its parameter vector. -/
structure ConfigEntry where
  key : String
  params : List String
deriving DecidableEq, Repr

/-- The store `Tntconfig`: the vector `config_entries`, in insertion order. -/
structure Tntconfig where
  config_entries : List ConfigEntry
deriving DecidableEq, Repr

namespace Tntconfig

/-- `Tntconfig::setConfigValue`: push a fresh entry and fill in key and params. -/
def setConfigValue (c : Tntconfig) (key : String) (params : List String) : Tntconfig :=
  ⟨c.config_entries ++ [⟨key, params⟩]⟩

/-- `Tntconfig::getConfigValue(key, def)`: the params of the first entry with that key. -/
def getConfigValue (c : Tntconfig) (key : String) (dflt : List String) : List String :=
  match c.config_entries.find? (fun e => e.key = key) with
  | some e => e.params
  | none => dflt

/-- `Tntconfig::getConfigValues(key, ret)`: walk the entries in order and
`push_back` onto `ret` each one whose key matches. -/
def getConfigValues (c : Tntconfig) (key : String) (ret : List ConfigEntry) : List ConfigEntry :=
  c.config_entries.foldl (fun r e => if e.key = key then r ++ [e] else r) ret

/-- The loop of `Tntconfig::getValue(key, def)` over the entries. -/
def getValueLoop (key : String) (dflt : String) : List ConfigEntry → String
  | [] => dflt
  | e :: rest =>
    if e.key = key ∧ e.params.length > 0 then e.params.getD 0 "" else getValueLoop key dflt rest

/-- `Tntconfig::getValue(key, def)`: the first parameter of the first entry with
that key and at least one parameter, else `def`. -/
def getValue (c : Tntconfig) (key : String) (dflt : String) : String :=
  getValueLoop key dflt c.config_entries

/-- `Tntconfig::hasValue(key)`. -/
def hasValue (c : Tntconfig) (key : String) : Bool :=
  c.config_entries.any (fun e => decide (e.key = key ∧ e.params.length > 0))

/-- Modelled from the spec: the header template `Tntconfig::getValue<T>(key, def)`
is not among the sources.  The configuration surface gives every scalar key one
parameter and a default; the template is taken to read the string
`getValue(key)` (empty when the key has no value) and to turn it into a `T`
with the stream extraction `conv`, which also receives the default. -/
def getValueT {T : Type} (conv : String → T → T) (c : Tntconfig) (key : String) (dflt : T) : T :=
  conv (c.getValue key "") dflt

end Tntconfig

/-! ## The dispatcher rules built by `configureDispatcher` (tntnet.cpp) -/

/-- `Dispatcher::CompidentType` as far as `configureDispatcher` fills it: the
component name it is constructed from, the path info (`none` while
`setPathInfo` has not been called) and the arguments given to `setArgs`. -/
structure Compident where
  ident : String
  pathInfo : Option String
  args : List String
deriving DecidableEq, Repr

/-- One call `dis.addUrlMapEntry(vhost, url, ci)`. -/
structure UrlMapEntry where
  vhost : String
  url : String
  ci : Compident
deriving DecidableEq, Repr

/-- The loop body of `configureDispatcher` for the entries still to be visited;
`dis` is the list of `addUrlMapEntry` calls made so far, oldest first. -/
def configureDispatcherLoop : List ConfigEntry → List UrlMapEntry → List UrlMapEntry × Option String
  | [], dis => (dis, none)
  | v :: rest, dis =>
    let args := v.params
    if v.key = "MapUrl" then
      if args.length < 2 then
        (dis, some ("invalid number of parameters (" ++ toString args.length ++ ") in MapUrl"))
      else
        let url := args.getD 0 ""
        let ci : Compident := ⟨args.getD 1 "", none, []⟩
        let ci := if args.length > 2 then
            let ci := { ci with pathInfo := some (args.getD 2 "") }
            if args.length > 3 then { ci with args := args.drop 3 } else ci
          else ci
        configureDispatcherLoop rest (dis ++ [⟨"", url, ci⟩])
    else if v.key = "VMapUrl" then
      if args.length < 3 then
        (dis, some ("invalid number of parameters (" ++ toString args.length ++ ") in VMapUrl"))
      else
        let vhost := args.getD 0 ""
        let url := args.getD 1 ""
        let ci : Compident := ⟨args.getD 2 "", none, []⟩
        let ci := if args.length > 3 then
            let ci := { ci with pathInfo := some (args.getD 3 "") }
            if args.length > 4 then { ci with args := args.drop 4 } else ci
          else ci
        configureDispatcherLoop rest (dis ++ [⟨vhost, url, ci⟩])
    else
      configureDispatcherLoop rest dis

/-- The function `configureDispatcher(dis, config)`. -/
def configureDispatcher (dis : List UrlMapEntry) (config : Tntconfig) :
    List UrlMapEntry × Option String :=
  configureDispatcherLoop config.config_entries dis

/-! ## Tntnet::init (tntnet.cpp) -/

/-- Modelled from the spec: `config.h` is not among the sources, so the macro
`USE_SSL` is unknown.  The spec describes the build with TLS ("one Listener per
`Listen` and `SslListen` entry"), so the `#ifdef USE_SSL` block is compiled in. -/
def USE_SSL : Bool := true

/-- What `Tntnet::init` takes from outside the configuration: the process uid
(`getuid()`) and the stream extractions `std::istringstream >> T` of the C++
library, one per target type.  `asPort s` is `p >> port` on an
`unsigned short`: `none` when the stream is left in a failed state (`!p`). -/
structure Env where
  uid : Nat
  asUnsigned : String → Nat → Nat
  asInt : String → Int → Int
  asBool : String → Bool → Bool
  asPort : String → Option Nat

/-- The objects inserted into `listeners`: `new tnt::Listener(ip, port, queue)`
and `new Ssllistener(certificateFile, certificateKey, ip, port, queue)`. -/
inductive ListenerObj where
  | listener (ip : String) (port : Nat)
  | ssllistener (certificateFile certificateKey ip : String) (port : Nat)
deriving DecidableEq, Repr

/-- The state `Tntnet::init` writes: the members of the `Tntnet` object, the
static settings of its collaborators that `init` sets through their setters,
the process environment as the list of `setenv(name, value, 1)` calls, and the
static flag `Tntnet::stop`.  `listeners` is a `std::set` of fresh pointers; it
is kept as the list of insertions, oldest first. -/
structure Tntnet where
  minthreads : Nat
  maxthreads : Nat
  threadstartdelay : Nat
  workerMinThreads : Nat
  maxRequestTime : Nat
  enableCompression : Bool
  queueCapacity : Nat
  sessionTimeout : Nat
  listenBacklog : Int
  listenRetry : Int
  maxUrlMapCache : Nat
  environ : List (String × String)
  d_dispatcher : List UrlMapEntry
  listeners : List ListenerObj
  maxRequestSize : Nat
  socketReadTimeout : Nat
  socketWriteTimeout : Nat
  keepAliveMax : Nat
  socketBufferSize : Nat
  minCompressSize : Nat
  keepAliveTimeout : Nat
  defaultContentType : String
  stop : Bool
deriving DecidableEq, Repr

/-- Lines 112-122 of `init`: thread bounds, start delay and the static settings
of Worker, queue, Sessionscope, Listener and Dispatcher. -/
def initSettings (env : Env) (config : Tntconfig) (t : Tntnet) : Tntnet :=
  let minthreads := config.getValueT env.asUnsigned "MinThreads" 5
  { t with
    minthreads := minthreads
    maxthreads := config.getValueT env.asUnsigned "MaxThreads" 100
    threadstartdelay := config.getValueT env.asUnsigned "ThreadStartDelay" 10
    workerMinThreads := minthreads
    maxRequestTime := config.getValueT env.asUnsigned "MaxRequestTime" t.maxRequestTime
    enableCompression := config.getValueT env.asBool "EnableCompression" t.enableCompression
    queueCapacity := config.getValueT env.asUnsigned "QueueSize" t.queueCapacity
    sessionTimeout := config.getValueT env.asUnsigned "SessionTimeout" t.sessionTimeout
    listenBacklog := config.getValueT env.asInt "ListenBacklog" t.listenBacklog
    listenRetry := config.getValueT env.asInt "ListenRetry" t.listenRetry
    maxUrlMapCache := config.getValueT env.asUnsigned "MaxUrlMapCache" t.maxUrlMapCache }

/-- The `SetEnv` loop of `init`: every entry with at least two parameters sets
`params[0]` to `params[1]` in the environment. -/
def initSetEnv : List ConfigEntry → List (String × String) → List (String × String)
  | [], environ => environ
  | it :: rest, environ =>
    if it.params.length ≥ 2 then
      initSetEnv rest (environ ++ [(it.params.getD 0 "", it.params.getD 1 "")])
    else
      initSetEnv rest environ

/-- The `for` loop over the `Listen` entries (the `else` branch of
`if (configListen.empty())`). -/
def initListenLoop (env : Env) : List ConfigEntry → List ListenerObj → List ListenerObj × Option String
  | [], listeners => (listeners, none)
  | it :: rest, listeners =>
    if it.params.isEmpty then
      (listeners, some "empty Listen-entry")
    else
      let port : Option Nat :=
        if it.params.length ≥ 2 then env.asPort (it.params.getD 1 "") else some 80
      match port with
      | none => (listeners, some ("invalid port " ++ it.params.getD 1 ""))
      | some port =>
        let ip := it.params.getD 0 ""
        initListenLoop env rest (listeners ++ [ListenerObj.listener ip port])

/-- The block "create listeners" of `init`. -/
def initListeners (env : Env) (config : Tntconfig) (listeners : List ListenerObj) :
    List ListenerObj × Option String :=
  let configListen := config.getConfigValues "Listen" []
  if configListen.isEmpty then
    let port := if env.uid = 0 then 80 else 8000
    (listeners ++ [ListenerObj.listener "0.0.0.0" port], none)
  else
    initListenLoop env configListen listeners

/-- The `for` loop over the `SslListen` entries. -/
def initSslListenLoop (env : Env) (defaultCertificateFile defaultCertificateKey : String) :
    List ConfigEntry → List ListenerObj → List ListenerObj × Option String
  | [], listeners => (listeners, none)
  | it :: rest, listeners =>
    if it.params.isEmpty then
      (listeners, some "empty SslListen-entry")
    else
      let port : Option Nat :=
        if it.params.length ≥ 2 then env.asPort (it.params.getD 1 "") else some 443
      match port with
      | none => (listeners, some ("invalid port " ++ it.params.getD 1 ""))
      | some port =>
        let certificateFile :=
          if it.params.length ≥ 3 then it.params.getD 2 "" else defaultCertificateFile
        let certificateKey :=
          if it.params.length ≥ 4 then it.params.getD 3 ""
          else if it.params.length ≥ 3 then it.params.getD 2 "" else defaultCertificateKey
        if certificateFile = "" then
          (listeners, some "Ssl-certificate not configured")
        else
          let ip := it.params.getD 0 ""
          initSslListenLoop env defaultCertificateFile defaultCertificateKey rest
            (listeners ++ [ListenerObj.ssllistener certificateFile certificateKey ip port])

/-- The block "create ssl-listener-threads" of `init` (`#ifdef USE_SSL`).
`config.getValue("SslCertificate")` is the string `getValue` with its default
argument, the empty string. -/
def initSslListeners (env : Env) (config : Tntconfig) (listeners : List ListenerObj) :
    List ListenerObj × Option String :=
  if USE_SSL then
    let defaultCertificateFile := config.getValue "SslCertificate" ""
    let defaultCertificateKey := config.getValue "SslKey" ""
    let configListen := config.getConfigValues "SslListen" []
    initSslListenLoop env defaultCertificateFile defaultCertificateKey configListen listeners
  else
    (listeners, none)

/-- The block "configure http" of `init` (lines 236-251). -/
def initHttp (env : Env) (config : Tntconfig) (t : Tntnet) : Tntnet :=
  { t with
    maxRequestSize := config.getValueT env.asUnsigned "MaxRequestSize" t.maxRequestSize
    socketReadTimeout := config.getValueT env.asUnsigned "SocketReadTimeout" t.socketReadTimeout
    socketWriteTimeout := config.getValueT env.asUnsigned "SocketWriteTimeout" t.socketWriteTimeout
    keepAliveMax := config.getValueT env.asUnsigned "KeepAliveMax" t.keepAliveMax
    socketBufferSize := config.getValueT env.asUnsigned "BufferSize" t.socketBufferSize
    minCompressSize := config.getValueT env.asUnsigned "MinCompressSize" t.minCompressSize
    keepAliveTimeout := config.getValueT env.asUnsigned "KeepAliveTimeout" t.keepAliveTimeout
    defaultContentType := config.getValue "DefaultContentType" t.defaultContentType }

/-- `Tntnet::init(config)`.  The result is the state reached and the exception
that ended `init`, if any.  `Comploader::configure(config)` configures the
component loader, a collaborator outside this state, and is not represented. -/
def init (env : Env) (config : Tntconfig) (t : Tntnet) : Tntnet × Option String :=
  let t := initSettings env config t
  let t := { t with environ := initSetEnv (config.getConfigValues "SetEnv" []) t.environ }
  match configureDispatcher t.d_dispatcher config with
  | (dis, some msg) => ({ t with d_dispatcher := dis }, some msg)
  | (dis, none) =>
    let t := { t with d_dispatcher := dis }
    match initListeners env config t.listeners with
    | (ls, some msg) => ({ t with listeners := ls }, some msg)
    | (ls, none) =>
      let t := { t with listeners := ls }
      match initSslListeners env config t.listeners with
      | (ls, some msg) => ({ t with listeners := ls }, some msg)
      | (ls, none) => (initHttp env config { t with listeners := ls }, none)

/-- The keys of the configuration table (spec section 6, "Recognized keys"). -/
def recognizedKeys : List String :=
  ["MinThreads", "MaxThreads", "ThreadStartDelay", "QueueSize", "MaxRequestTime",
   "SessionTimeout", "ListenBacklog", "ListenRetry", "SocketReadTimeout",
   "SocketWriteTimeout", "KeepAliveMax", "KeepAliveTimeout", "BufferSize",
   "MaxRequestSize", "MinCompressSize", "EnableCompression", "DefaultContentType",
   "MaxUrlMapCache", "Listen", "SslListen", "SslCertificate", "SslKey", "SetEnv",
   "MapUrl", "VMapUrl"]

/-! ## Tntnet::run and Tntnet::shutdown (tntnet.cpp) -/

/-- `Tntnet::shutdown()`: `stop = true`. -/
def shutdown (t : Tntnet) : Tntnet :=
  { t with stop := true }

/-- `Tntnet::shouldStop()` (tnt/tntnet.h). -/
def shouldStop (t : Tntnet) : Bool :=
  t.stop

/-- What `Tntnet::run` changes outside the `Tntnet` object: the live-worker
count read by `Worker::getCountThreads()`, the number of `new Worker(*this)`
the core has executed, and whether the poller and timer threads were started. -/
structure RunState where
  countThreads : Nat
  created : Nat
  pollerStarted : Bool
  timerStarted : Bool
deriving DecidableEq, Repr

/-- Modelled from the spec: `tnt/worker.h` and the Worker sources are absent.
`Worker* s = new Worker(*this); s->create();` adds one live worker to the
process-wide count of live workers. -/
def createWorker (st : RunState) : RunState :=
  { st with countThreads := st.countThreads + 1, created := st.created + 1 }

/-- The startup loop `for (unsigned i = 0; i < minthreads; ++i)` of `run`,
with `n` iterations still to go. -/
def runCreateWorkers : Nat → RunState → RunState
  | 0, st => st
  | n + 1, st => runCreateWorkers n (createWorker st)

/-- The start of `run` up to the main loop: spawn `minthreads` workers, start
the poller thread and the timer thread. -/
def runStartup (t : Tntnet) (st : RunState) : RunState :=
  let st := runCreateWorkers t.minthreads st
  { st with pollerStarted := true, timerStarted := true }

/-- One wakeup of the main loop: the body of `while (!stop)` from the return
of `queue.noWaitThreads.wait(lock)` on.  `t.stop` is the flag as it is read by
`if (stop) break;`.  The second component tells whether the loop was left. -/
def mainLoopWakeup (t : Tntnet) (st : RunState) : RunState × Bool :=
  if t.stop then
    (st, true)
  else
    let st := if st.countThreads < t.maxthreads then createWorker st else st
    (st, false)

/-- The main loop of `run` under a schedule: one entry per wakeup, `true` when
another thread called `shutdown()` while the loop was blocked in `wait`.  The
loop head `while (!stop)` is tested before each wait.  The result carries
whether the loop was left (`false`: the schedule ended with the loop still
waiting). -/
def mainLoop : List Bool → Tntnet → RunState → Tntnet × RunState × Bool
  | [], t, st => (t, st, t.stop)
  | sd :: rest, t, st =>
    if t.stop then
      (t, st, true)
    else
      let t := if sd then shutdown t else t
      match mainLoopWakeup t st with
      | (st, true) => (t, st, true)
      | (st, false) => mainLoop rest t st

/-- `Tntnet::run()` under a schedule of wakeups: startup, main loop and, once
the loop is left, the join loop, which removes, stops and deletes every
listener.  The last component is `false` while `run` is still blocked in the
main loop. -/
def run (sched : List Bool) (t : Tntnet) (st : RunState) : Tntnet × RunState × Bool :=
  match mainLoop sched t (runStartup t st) with
  | (t, st, true) => ({ t with listeners := [] }, st, true)
  | (t, st, false) => (t, st, false)

/-- The state in which `run` is entered: no worker created yet. -/
def RunState.initial : RunState :=
  ⟨0, 0, false, false⟩

/-! ## SslStream::SslRead and SslStream::SslWrite (ssl.cpp) -/

/-- The value `SSL_ERROR_WANT_READ` of openssl/ssl.h. -/
def SSL_ERROR_WANT_READ : Int := 2

/-- The value `SSL_ERROR_WANT_WRITE` of openssl/ssl.h. -/
def SSL_ERROR_WANT_WRITE : Int := 3

/-- The external calls made by `SslRead` and `SslWrite`.  `SSL_write` carries
the offset of its buffer argument from the start of the caller's buffer and
its length argument; `poll` carries `fds.events`. -/
inductive Call where
  | SSL_read
  | SSL_write (offset : Int) (num : Int)
  | SSL_get_error
  | ERR_get_error
  | poll (pollin pollout : Bool)
deriving DecidableEq, Repr

/-- One external call together with whether the calling thread held the
process-wide `mutex` (through `lock`) when it made the call. -/
structure Event where
  call : Call
  mutexHeld : Bool
deriving DecidableEq, Repr

/-- How `SslRead` / `SslWrite` ends: `return n`, `cxxtools::tcp::Timeout`,
`cxxtools::tcp::Exception`, or the `SslException` thrown by `checkSslError`
for a non-zero `ERR_get_error()` code. -/
inductive Outcome where
  | returned (n : Int)
  | Timeout
  | Exception
  | SslException (code : Int)
deriving DecidableEq, Repr

/-- The execution state of one call of `SslRead` or `SslWrite`: the control
point `pc` (which external call is pending), whether `lock` holds the mutex,
and the calls made so far, oldest first. -/
structure SslState (Pc : Type) where
  pc : Pc
  locked : Bool
  trace : List Event

/-- Make the external call `c` and wait for its result at control point `pc`. -/
def SslState.call {Pc : Type} (st : SslState Pc) (c : Call) (pc : Pc) : SslState Pc :=
  { st with pc := pc, trace := st.trace ++ [⟨c, st.locked⟩] }

/-- Leave the function at the final control point `pc`; the destructor of
`lock` releases the mutex if it is held. -/
def SslState.finish {Pc : Type} (st : SslState Pc) (pc : Pc) : SslState Pc :=
  { st with pc := pc, locked := false }

/-- The control points of `SslRead`: the pending external call, with the value
of `n` where it is live.  Line numbers refer to ssl.cpp. -/
inductive ReadPc where
  /-- Line 205: `SSL_read` in the blocking loop. -/
  | blkRead
  /-- Line 207: first `SSL_get_error` of the blocking loop condition. -/
  | blkErr1 (n : Int)
  /-- Line 208: second `SSL_get_error` of the blocking loop condition. -/
  | blkErr2 (n : Int)
  /-- Line 215: `SSL_read` of "try read". -/
  | tryRead
  /-- Line 222: `SSL_get_error(ssl, n) != SSL_ERROR_WANT_READ`. -/
  | tryErr1 (n : Int)
  /-- Line 223: `SSL_get_error(ssl, n) != SSL_ERROR_WANT_WRITE`. -/
  | tryErr2 (n : Int)
  /-- Line 224: `ERR_get_error` inside `checkSslError()`. -/
  | tryCheck (n : Int)
  /-- Line 240: `SSL_get_error` deciding `fds.events`. -/
  | pollEvents (n : Int)
  /-- Line 244: `poll`. -/
  | poll (n : Int)
  /-- Line 261: `SSL_read` after a successful poll. -/
  | pollRead
  /-- Line 263: `ERR_get_error` inside `checkSslError()`. -/
  | pollCheck (n : Int)
  /-- Line 266: first `SSL_get_error` of the poll loop condition. -/
  | pollErr1 (n : Int)
  /-- Line 267: second `SSL_get_error` of the poll loop condition. -/
  | pollErr2 (n : Int)
  /-- Line 270: `ERR_get_error` inside the final `checkSslError()`. -/
  | finalCheck (n : Int)
  /-- The function has returned or thrown. -/
  | done (o : Outcome)
deriving DecidableEq, Repr

/-- Lines 226-244 of `SslRead`, reached after "try read" gave no byte and
raised no SSL error: throw Timeout for `timeout == 0`, else enter the poll loop. -/
def SslRead.afterTry (timeout : Int) (n : Int) (st : SslState ReadPc) : SslState ReadPc :=
  if timeout = 0 then st.finish (.done .Timeout)
  else st.call .SSL_get_error (.pollEvents n)

/-- The entry of `SslRead`: take the mutex, then `SSL_read` in the blocking
branch (`getTimeout() < 0`) or in the timeout branch. -/
def SslRead.start (timeout : Int) : SslState ReadPc :=
  let st : SslState ReadPc := ⟨.tryRead, true, []⟩
  if timeout < 0 then st.call .SSL_read .blkRead else st.call .SSL_read .tryRead

/-- One step of `SslRead`: the pending external call returns `r` and the code
runs on to its next external call, or to its end. -/
def SslRead.step (timeout : Int) (st : SslState ReadPc) (r : Int) : SslState ReadPc :=
  match st.pc with
  | .blkRead =>
    if r ≤ 0 then st.call .SSL_get_error (.blkErr1 r)
    else st.call .ERR_get_error (.finalCheck r)
  | .blkErr1 n =>
    if r = SSL_ERROR_WANT_READ then st.call .SSL_read .blkRead
    else st.call .SSL_get_error (.blkErr2 n)
  | .blkErr2 n =>
    if r = SSL_ERROR_WANT_WRITE then st.call .SSL_read .blkRead
    else st.call .ERR_get_error (.finalCheck n)
  | .tryRead =>
    if r > 0 then st.finish (.done (.returned r))
    else st.call .SSL_get_error (.tryErr1 r)
  | .tryErr1 n =>
    if r ≠ SSL_ERROR_WANT_READ then st.call .SSL_get_error (.tryErr2 n)
    else SslRead.afterTry timeout n st
  | .tryErr2 n =>
    if r ≠ SSL_ERROR_WANT_WRITE then st.call .ERR_get_error (.tryCheck n)
    else SslRead.afterTry timeout n st
  | .tryCheck n =>
    if r ≠ 0 then st.finish (.done (.SslException r))
    else SslRead.afterTry timeout n st
  | .pollEvents n =>
    let pollout := decide (r = SSL_ERROR_WANT_WRITE)
    let st := { st with locked := false }
    st.call (.poll true pollout) (.poll n)
  | .poll _ =>
    if r < 0 then st.finish (.done .Exception)
    else if r = 0 then st.finish (.done .Timeout)
    else
      let st := { st with locked := true }
      st.call .SSL_read .pollRead
  | .pollRead => st.call .ERR_get_error (.pollCheck r)
  | .pollCheck n =>
    if r ≠ 0 then st.finish (.done (.SslException r))
    else if n ≤ 0 then st.call .SSL_get_error (.pollErr1 n)
    else st.call .ERR_get_error (.finalCheck n)
  | .pollErr1 n =>
    if r = SSL_ERROR_WANT_READ then st.call .SSL_get_error (.pollEvents n)
    else st.call .SSL_get_error (.pollErr2 n)
  | .pollErr2 n =>
    if r = SSL_ERROR_WANT_WRITE then st.call .SSL_get_error (.pollEvents n)
    else st.call .ERR_get_error (.finalCheck n)
  | .finalCheck n =>
    if r ≠ 0 then st.finish (.done (.SslException r))
    else st.finish (.done (.returned n))
  | .done _ => st

/-- `SslStream::SslRead` on a stream with the given timeout, run against the
results of its external calls in call order.  Results left over after the
function has ended are not consumed; when the results run out first, the
state shows the call that is pending. -/
def SslRead (timeout : Int) (results : List Int) : SslState ReadPc :=
  results.foldl (SslRead.step timeout) (SslRead.start timeout)

/-- The control points of `SslWrite`, with the live values of `n`, of the
offset of `buffer` from its initial value, and of `s`. -/
inductive WritePc where
  /-- Line 286: `SSL_write(ssl, buffer, s)`. -/
  | write (offset s : Int)
  /-- Line 287: `ERR_get_error` inside `checkSslError()`. -/
  | check (n offset s : Int)
  /-- Line 301: `SSL_get_error` deciding `fds.events`. -/
  | events (n offset s : Int)
  /-- Line 304: `poll`. -/
  | poll (offset s : Int)
  /-- The function has returned or thrown. -/
  | done (o : Outcome)
deriving DecidableEq, Repr

/-- The entry of `SslWrite`: take the mutex, `s = bufsize`, first `SSL_write`. -/
def SslWrite.start (bufsize : Int) : SslState WritePc :=
  let st : SslState WritePc := ⟨.write 0 bufsize, true, []⟩
  st.call (.SSL_write 0 bufsize) (.write 0 bufsize)

/-- One step of `SslWrite`: the pending external call returns `r`. -/
def SslWrite.step (bufsize : Int) (st : SslState WritePc) (r : Int) : SslState WritePc :=
  match st.pc with
  | .write offset s => st.call .ERR_get_error (.check r offset s)
  | .check n offset s =>
    if r ≠ 0 then st.finish (.done (.SslException r))
    else
      let offset := if n > 0 then offset + n else offset
      let s := if n > 0 then s - n else s
      if s ≤ 0 then st.finish (.done (.returned bufsize))
      else st.call .SSL_get_error (.events n offset s)
  | .events _ offset s =>
    let pollin := decide (r = SSL_ERROR_WANT_READ)
    let st := { st with locked := false }
    st.call (.poll pollin true) (.poll offset s)
  | .poll offset s =>
    let st := { st with locked := true }
    if r < 0 then st.finish (.done .Exception)
    else if r = 0 then st.finish (.done .Timeout)
    else st.call (.SSL_write offset s) (.write offset s)
  | .done _ => st

/-- `SslStream::SslWrite` of `bufsize` bytes, run against the results of its
external calls in call order. -/
def SslWrite (bufsize : Int) (results : List Int) : SslState WritePc :=
  results.foldl (SslWrite.step bufsize) (SslWrite.start bufsize)

/-- Whether an event is a `poll` call. -/
def Event.isPoll (e : Event) : Bool :=
  match e.call with
  | .poll _ _ => true
  | _ => false

/-- Whether an event is an `SSL_read` or an `SSL_write` call. -/
def Event.isSslIO (e : Event) : Bool :=
  match e.call with
  | .SSL_read => true
  | .SSL_write _ _ => true
  | _ => false

/-- The control points of `SslRead` at which `lock` holds the mutex: all but
the pending `poll` and the end of the function. -/
def ReadPc.holdsLock : ReadPc → Bool
  | .poll _ => false
  | .done _ => false
  | _ => true

/-- The control points of `SslWrite` at which `lock` holds the mutex. -/
def WritePc.holdsLock : WritePc → Bool
  | .poll _ _ => false
  | .done _ => false
  | _ => true

/-- The lock discipline of a trace: no `poll` was called with the mutex held,
and every `SSL_read` / `SSL_write` was called with the mutex held. -/
def lockDiscipline (trace : List Event) : Prop :=
  ∀ e ∈ trace, (e.isPoll = true → e.mutexHeld = false) ∧ (e.isSslIO = true → e.mutexHeld = true)

/-- The listener the spec's configuration table asks for a `Listen` entry
(`ip[, port=80]`): a plaintext listener on the entry's first parameter, whose
port is the extraction of the second parameter when there is one, else 80. -/
def fromListen (env : Env) (e : ConfigEntry) (l : ListenerObj) : Prop :=
  ∃ port, l = ListenerObj.listener (e.params.getD 0 "") port ∧
    (2 ≤ e.params.length → env.asPort (e.params.getD 1 "") = some port) ∧
    (e.params.length < 2 → port = 80)

/-- The endpoint the spec's configuration table asks for an `SslListen` entry
(`ip[, port=443[, cert[, key]]]`): a TLS listener on the entry's first
parameter, whose port is the extraction of the second parameter when there is
one, else 443. -/
def fromSslListen (env : Env) (e : ConfigEntry) (l : ListenerObj) : Prop :=
  ∃ port cert key, l = ListenerObj.ssllistener cert key (e.params.getD 0 "") port ∧
    (2 ≤ e.params.length → env.asPort (e.params.getD 1 "") = some port) ∧
    (e.params.length < 2 → port = 443)

/-- The files `init` hands to the TLS listener of an `SslListen` entry, given
the values `dc` of `SslCertificate` and `dk` of `SslKey`: parameters three and
four when present; with exactly three parameters the certificate parameter
serves as the key file too; with fewer, both defaults. -/
def sslFilesOf (dc dk : String) (e : ConfigEntry) (l : ListenerObj) : Prop :=
  ∃ port cert key ip, l = ListenerObj.ssllistener cert key ip port ∧ cert ≠ "" ∧
    (e.params.length < 3 → cert = dc ∧ key = dk) ∧
    (e.params.length = 3 → cert = e.params.getD 2 "" ∧ key = e.params.getD 2 "") ∧
    (4 ≤ e.params.length → cert = e.params.getD 2 "" ∧ key = e.params.getD 3 "")

/-- Whether a listener object is a TLS listener. -/
def ListenerObj.isSsl : ListenerObj → Bool
  | .listener _ _ => false
  | .ssllistener _ _ _ _ => true

/-! ## ConfigParser and TntconfigParser (tntconfig.cpp) -/

/-- `std::isspace(ch)` in the "C" locale: space, `\t`, `\n`, `\v`, `\f`, `\r`. -/
def isspace (ch : Char) : Bool :=
  ch = ' ' || ch = '\t' || ch = '\n' || ch = Char.ofNat 11 || ch = Char.ofNat 12 || ch = '\r'

/-- The states of `ConfigParser` (the enumeration of tnt/tntconfig.h, as used
by `ConfigParser::parse`). -/
inductive state_type where
  | state_start
  | state_cmd
  | state_args
  | state_args_esc
  | state_token
  | state_qstring
  | state_qstring_esc
  | state_comment
deriving DecidableEq, Repr

open state_type

/-- The members of `ConfigParser`: `state`, and the strings `current_cmd`,
`current_token` (kept as their character sequences) and the vector
`current_params`. -/
structure ConfigParser where
  state : state_type
  current_cmd : List Char
  current_params : List String
  current_token : List Char
deriving DecidableEq, Repr

/-- A freshly constructed `ConfigParser`: start state, empty buffers. -/
def ConfigParser.fresh : ConfigParser :=
  ⟨state_start, [], [], []⟩

/-- The statements `onLine(current_cmd, current_params); current_cmd.clear();
current_params.clear();` followed by `state = next`: the parser after them and
the line handed to `onLine`. -/
def ConfigParser.onLineAndClear (p : ConfigParser) (next : state_type) :
    ConfigParser × Option ConfigEntry :=
  ({ p with current_cmd := [], current_params := [], state := next },
   some ⟨String.mk p.current_cmd, p.current_params⟩)

/-- `ConfigParser::parse(char ch)`.  The virtual `onLine` is called at most once
per character; its arguments are returned as the second component. -/
def ConfigParser.parse (p : ConfigParser) (ch : Char) : ConfigParser × Option ConfigEntry :=
  match p.state with
  | state_start =>
    if ch = '#' then ({ p with state := state_comment }, none)
    else if !isspace ch then ({ p with current_cmd := [ch], state := state_cmd }, none)
    else (p, none)
  | state_cmd =>
    if ch = '\n' then p.onLineAndClear state_start
    else if ch = '#' then p.onLineAndClear state_comment
    else if isspace ch then ({ p with state := state_args }, none)
    else ({ p with current_cmd := p.current_cmd ++ [ch] }, none)
  | state_args =>
    if ch = '\n' ∨ ch = '#' then
      p.onLineAndClear (if ch = '\n' then state_start else state_comment)
    else if ch = '\\' then ({ p with state := state_args_esc }, none)
    else if ch = '"' then ({ p with state := state_qstring }, none)
    else if !isspace ch then ({ p with current_token := [ch], state := state_token }, none)
    else (p, none)
  | state_args_esc =>
    if ch = '\n' then ({ p with state := state_args }, none)
    else ({ p with current_token := [ch], state := state_token }, none)
  | state_token =>
    if ch = '\n' ∨ ch = '#' then
      let p := { p with current_params := p.current_params ++ [String.mk p.current_token],
                        current_token := [] }
      p.onLineAndClear (if ch = '\n' then state_start else state_cmd)
    else if isspace ch then
      ({ p with current_params := p.current_params ++ [String.mk p.current_token],
                current_token := [], state := state_args }, none)
    else ({ p with current_token := p.current_token ++ [ch] }, none)
  | state_qstring =>
    if ch = '"' then
      ({ p with current_params := p.current_params ++ [String.mk p.current_token],
                current_token := [], state := state_args }, none)
    else if ch = '\\' then ({ p with state := state_qstring_esc }, none)
    else ({ p with current_token := p.current_token ++ [ch] }, none)
  | state_qstring_esc =>
    ({ p with current_token := p.current_token ++ [ch], state := state_qstring }, none)
  | state_comment =>
    if ch = '\n' then ({ p with state := state_start }, none)
    else (p, none)

/-- Feed a character sequence to `ConfigParser::parse`, one character after the
other: the parser reached and the `onLine` calls made, oldest first. -/
def ConfigParser.feed : ConfigParser → List Char → ConfigParser × List ConfigEntry
  | p, [] => (p, [])
  | p, ch :: rest =>
    let r := p.parse ch
    let q := ConfigParser.feed r.1 rest
    (q.1, r.2.toList ++ q.2)

/-- The class `TntconfigParser`: a `ConfigParser` with the stack `istreams`
(top first, each stream as its unread characters) and the `Tntconfig` it
fills through the reference `config`. -/
structure TntconfigParser extends ConfigParser where
  istreams : List (List Char)
  config : Tntconfig
deriving DecidableEq, Repr

/-- `TntconfigParser(config_)`.  The base-class constructor is in the absent
header; it is taken to start in `state_start` with empty buffers. -/
def TntconfigParser.fresh (config : Tntconfig) : TntconfigParser :=
  { ConfigParser.fresh with istreams := [], config := config }

/-- `TntconfigParser::checkInclude(key, params)`.  `files` stands for the file
system seen through `cxxtools::multi_ifstream`: the characters of the named
file, `none` when it cannot be opened.  Result: the parser, the exception
thrown if any, and the returned `bool`. -/
def TntconfigParser.checkInclude (files : String → Option (List Char)) (p : TntconfigParser)
    (key : String) (params : List String) : TntconfigParser × Option String × Bool :=
  if key = "include" ∧ params.length = 1 then
    match files (params.getD 0 "") with
    | none => (p, some ("cannot open include file " ++ params.getD 0 ""), false)
    | some inp =>
      if p.istreams.length > 5 then (p, some "too many include-levels", false)
      else ({ p with istreams := inp :: p.istreams }, none, true)
  else (p, none, false)

/-- `TntconfigParser::onLine(key, params)`. -/
def TntconfigParser.onLine (files : String → Option (List Char)) (p : TntconfigParser)
    (key : String) (params : List String) : TntconfigParser × Option String :=
  match p.checkInclude files key params with
  | (p, some msg, _) => (p, some msg)
  | (p, none, true) => (p, none)
  | (p, none, false) => ({ p with config := p.config.setConfigValue key params }, none)

/-- `ConfigParser::parse(ch)` on a `TntconfigParser`: the base-class code with
`onLine` dispatched to `TntconfigParser::onLine`.  When `onLine` throws, the
statements after the call (the two `clear()` and the assignment to `state`)
are not executed. -/
def TntconfigParser.parseChar (files : String → Option (List Char)) (p : TntconfigParser)
    (ch : Char) : TntconfigParser × Option String :=
  match p.toConfigParser.parse ch with
  | (q, none) => ({ p with toConfigParser := q }, none)
  | (q, some line) =>
    match p.onLine files line.key line.params with
    | (p2, some msg) =>
      ({ p2 with toConfigParser :=
          { q with current_cmd := line.key.data, current_params := line.params,
                   state := p.state } }, some msg)
    | (p2, none) => ({ p2 with toConfigParser := q }, none)

/-- The loop `while (istreams.size() > 0)` of `TntconfigParser::parse`, one
character read or one end of stream per unit of fuel: `get(ch)` on the top
stream, `ConfigParser::parse(ch)`; at the end of the top stream
`ConfigParser::parse('\n')` and `istreams.pop()`.  `none`: the fuel ran out. -/
def TntconfigParser.parseLoop (files : String → Option (List Char)) :
    Nat → TntconfigParser → Option (TntconfigParser × Option String)
  | 0, _ => none
  | fuel + 1, p =>
    match p.istreams with
    | [] => some (p, none)
    | (ch :: rest) :: below =>
      match TntconfigParser.parseChar files { p with istreams := rest :: below } ch with
      | (p, some msg) => some (p, some msg)
      | (p, none) => TntconfigParser.parseLoop files fuel p
    | [] :: _ =>
      match TntconfigParser.parseChar files p '\n' with
      | (p, some msg) => some (p, some msg)
      | (p, none) => TntconfigParser.parseLoop files fuel { p with istreams := p.istreams.tail }

/-- `TntconfigParser::parse(std::istream& in)`: push `in`, run the loop; the
`catch` block pops every stream but the bottom one and rethrows; after the
loop a state other than `state_start` is the parse error. -/
def TntconfigParser.parse (files : String → Option (List Char)) (fuel : Nat)
    (p : TntconfigParser) (inp : List Char) : Option (TntconfigParser × Option String) :=
  match TntconfigParser.parseLoop files fuel { p with istreams := inp :: p.istreams } with
  | none => none
  | some (p, some msg) =>
    some ({ p with istreams := p.istreams.drop (p.istreams.length - 1) }, some msg)
  | some (p, none) =>
    if p.state ≠ state_start then some (p, some "parse error while reading config")
    else some (p, none)

/-- `Tntconfig::load(std::istream& in)`: the store after parsing and the
exception that left `load`, if any. -/
def Tntconfig.load (files : String → Option (List Char)) (fuel : Nat) (c : Tntconfig)
    (inp : List Char) : Option (Tntconfig × Option String) :=
  match TntconfigParser.parse files fuel (TntconfigParser.fresh c) inp with
  | none => none
  | some (p, err) => some (p.config, err)

/-- A parameter with each `"` and each backslash preceded by a backslash. -/
def escapeParam : List Char → List Char
  | [] => []
  | ch :: rest =>
    (if ch = '"' ∨ ch = '\\' then ['\\', ch] else [ch]) ++ escapeParam rest

/-- The text that quotes a parameter for the configuration file: the escaped
parameter between double quotes. -/
def quoteParam (param : List Char) : List Char :=
  '"' :: escapeParam param ++ ['"']

/-- For each parameter a space and the quoted parameter. -/
def quoteParams : List String → List Char
  | [] => []
  | param :: rest => ' ' :: quoteParam param.data ++ quoteParams rest

/-- The configuration line for a key and its parameters: the key, then for
each parameter a space and the quoted parameter, then a newline. -/
def quoteLine (key : String) (params : List String) : List Char :=
  key.data ++ quoteParams params ++ ['\n']

/-! ## Tntnet::timerTask and the static flag (tntnet.cpp) -/

/-- The initializer of the static flag: `bool Tntnet::stop = false;`. -/
def stopInitializer : Bool := false

/-- One pass of the loop of `Tntnet::timerTask`: `sleep(1)`, then
`getScopemanager().checkSessionTimeout()` and `Worker::timer()`.  Both are
collaborators outside the sources; they act on their own state `σ` (sessions,
workers) and are taken as parameters.  `Tntnet::stop` is a private static
member of `Tntnet`, out of their reach. -/
def timerTick {σ : Type} (checkSessionTimeout workerTimer : σ → σ) (t : Tntnet) (c : σ) :
    Tntnet × σ :=
  (t, workerTimer (checkSessionTimeout c))

/-- The end of `Tntnet::timerTask`, after `while (!stop)` is left:
`queue.noWaitThreads.signal()`, `Worker::setMinThreads(0)`,
`pollerthread.doStop()`. -/
def timerTaskExit (t : Tntnet) (st : RunState) : Tntnet × RunState :=
  ({ t with workerMinThreads := 0 }, { st with pollerStarted := false })

/-- `Tntnet::timerTask()` for `ticks` passes; the loop head `while (!stop)` is
tested before each pass. -/
def timerTask {σ : Type} (checkSessionTimeout workerTimer : σ → σ) :
    Nat → Tntnet → RunState → σ → Tntnet × RunState × σ
  | 0, t, st, c => (t, st, c)
  | ticks + 1, t, st, c =>
    if t.stop then
      ((timerTaskExit t st).1, (timerTaskExit t st).2, c)
    else
      timerTask checkSessionTimeout workerTimer ticks
        (timerTick checkSessionTimeout workerTimer t c).1 st
        (timerTick checkSessionTimeout workerTimer t c).2

/-! ## The `SSL_write` calls of one `SslWrite` -/

/-- The `SSL_write` calls answered during a run of `SslWrite` from state `st`
against `results`: for each, the buffer offset and the length it was given and
the value it returned. -/
def SslWrite.writes (bufsize : Int) : SslState WritePc → List Int → List (Int × Int × Int)
  | _, [] => []
  | st, r :: rest =>
    match st.pc with
    | .write offset s =>
      (offset, s, r) :: SslWrite.writes bufsize (SslWrite.step bufsize st r) rest
    | _ => SslWrite.writes bufsize (SslWrite.step bufsize st r) rest

/-- The bytes accepted by one `SSL_write` call: its result when positive. -/
def written (w : Int × Int × Int) : Int :=
  if w.2.2 > 0 then w.2.2 else 0

/-- The calls `ws` continue a buffer of `bufsize` bytes of which `sent` are
written: each call is given the offset reached so far, that is the suffix not
yet written, and the remaining length, and advances the offset by the bytes
it accepted. -/
def suffixCalls (bufsize : Int) : Int → List (Int × Int × Int) → Prop
  | _, [] => True
  | sent, w :: ws =>
    w.1 = sent ∧ w.2.1 = bufsize - sent ∧ suffixCalls bufsize (sent + written w) ws

/-- What holds at a control point of `SslWrite` when `sent` bytes have been
accepted by the `SSL_write` calls answered so far, none of them having
returned more than it was asked for. -/
def WritePc.progress (bufsize sent : Int) : WritePc → Prop
  | .write offset s => offset = sent ∧ s = bufsize - sent ∧ 0 < s
  | .check n offset s =>
    offset + (if n > 0 then n else 0) = sent ∧ s = bufsize - offset ∧ 0 < s ∧ n ≤ s
  | .events _ offset s => offset = sent ∧ s = bufsize - sent ∧ 0 < s
  | .poll offset s => offset = sent ∧ s = bufsize - sent ∧ 0 < s
  | .done (.returned m) => m = bufsize ∧ sent = bufsize
  | .done _ => True

/-- The offset and length arguments of an `SSL_write` event. -/
def Event.writeArgs (e : Event) : Option (Int × Int) :=
  match e.call with
  | .SSL_write offset num => some (offset, num)
  | _ => none

/-- The arguments of the `SSL_write` call that is waiting for its result. -/
def WritePc.pendingWrite : WritePc → List (Int × Int)
  | .write offset s => [(offset, s)]
  | _ => []

/-! ## Concrete inputs used to evaluate the embedding -/

/-- The value of a string of decimal digits, `none` if another character occurs. -/
def decimalValue : List Char → Nat → Option Nat
  | [], acc => some acc
  | c :: cs, acc =>
    if '0' ≤ c ∧ c ≤ '9' then decimalValue cs (acc * 10 + (c.toNat - 48)) else none

/-- Read a non-empty string of decimal digits. -/
def parseDecimal (s : String) : Option Nat :=
  if s.data = [] then none else decimalValue s.data 0

/-- An environment for evaluating `init` on concrete configurations: process
uid `uid`, and extractions that read a non-empty string of decimal digits as
its value and leave the default (or fail, for a port) on anything else. -/
def decimalEnv (uid : Nat) : Env where
  uid := uid
  asUnsigned s d := (parseDecimal s).getD d
  asInt s d := ((parseDecimal s).map Int.ofNat).getD d
  asBool s d := if s = "1" then true else if s = "0" then false else d
  asPort s := (parseDecimal s).filter (fun p => decide (p < 65536))

/-- The results of `k` rounds in which `SSL_write` accepts nothing and reports
no error (`SSL_write` 0, `ERR_get_error` 0, `SSL_get_error` 0) and `poll` finds
the descriptor ready (`poll` 1). -/
def stallResults : Nat → List Int
  | 0 => []
  | k + 1 => 0 :: 0 :: 0 :: 1 :: stallResults k

/-- A `Tntnet` object as `init` may find it: no listener, no dispatcher rule,
empty environment log, the flag `stop` false, and sample values for the
static defaults of the collaborators. -/
def sampleTntnet : Tntnet where
  minthreads := 0
  maxthreads := 0
  threadstartdelay := 0
  workerMinThreads := 0
  maxRequestTime := 600
  enableCompression := true
  queueCapacity := 1000
  sessionTimeout := 300
  listenBacklog := 16
  listenRetry := 5
  maxUrlMapCache := 8192
  environ := []
  d_dispatcher := []
  listeners := []
  maxRequestSize := 0
  socketReadTimeout := 200
  socketWriteTimeout := 10000
  keepAliveMax := 1000
  socketBufferSize := 16384
  minCompressSize := 1024
  keepAliveTimeout := 15000
  defaultContentType := "text/html"
  stop := false

/-! # Properties -/

/-! ## The main loop of `Tntnet::run` -/

theorem runCreateWorkers_countThreads (n : Nat) (st : RunState) :
    (runCreateWorkers n st).countThreads = st.countThreads + n := by
  induction n generalizing st with
  | zero => rfl
  | succ k ih => simp only [runCreateWorkers, ih, createWorker]; omega

theorem runCreateWorkers_created (n : Nat) (st : RunState) :
    (runCreateWorkers n st).created = st.created + n := by
  induction n generalizing st with
  | zero => rfl
  | succ k ih => simp only [runCreateWorkers, ih, createWorker]; omega

theorem runStartup_countThreads (t : Tntnet) (st : RunState) :
    (runStartup t st).countThreads = st.countThreads + t.minthreads := by
  simp [runStartup, runCreateWorkers_countThreads]

theorem runStartup_created (t : Tntnet) (st : RunState) :
    (runStartup t st).created = st.created + t.minthreads := by
  simp [runStartup, runCreateWorkers_created]

/-- The main loop never changes the thread bounds of the core. -/
theorem mainLoop_bounds (sched : List Bool) (t : Tntnet) (st : RunState) :
    (mainLoop sched t st).1.minthreads = t.minthreads ∧
    (mainLoop sched t st).1.maxthreads = t.maxthreads := by
  induction sched generalizing t st with
  | nil => simp [mainLoop]
  | cons sd rest ih =>
    unfold mainLoop
    by_cases hs : t.stop = true
    · simp [hs]
    · cases sd
      · simp [hs, mainLoopWakeup]
        exact ih _ _
      · simp [hs, mainLoopWakeup, shutdown]

/-- Any interval `[lo, hi]` with `hi` at least `maxthreads` that holds the live
count on entry to the main loop holds it after every schedule, and the live
count keeps step with the number of workers created. -/
theorem mainLoop_interval (lo hi : Nat) (sched : List Bool) (t : Tntnet) (st : RunState)
    (hlo : lo ≤ st.countThreads) (hhi : st.countThreads ≤ hi) (hmax : t.maxthreads ≤ hi) :
    lo ≤ (mainLoop sched t st).2.1.countThreads ∧
    (mainLoop sched t st).2.1.countThreads ≤ hi ∧
    (mainLoop sched t st).2.1.countThreads + st.created
      = (mainLoop sched t st).2.1.created + st.countThreads := by
  induction sched generalizing t st with
  | nil => simp [mainLoop, hlo, hhi]; omega
  | cons sd rest ih =>
    unfold mainLoop
    by_cases hs : t.stop = true
    · simp [hs, hlo, hhi]; omega
    · have key : ∀ t2 : Tntnet, t2.stop = false → t2.maxthreads ≤ hi →
          lo ≤ (mainLoop rest t2 (mainLoopWakeup t2 st).1).2.1.countThreads ∧
          (mainLoop rest t2 (mainLoopWakeup t2 st).1).2.1.countThreads ≤ hi ∧
          (mainLoop rest t2 (mainLoopWakeup t2 st).1).2.1.countThreads + st.created
            = (mainLoop rest t2 (mainLoopWakeup t2 st).1).2.1.created + st.countThreads := by
        intro t2 h2 hm2
        by_cases hc : st.countThreads < t2.maxthreads
        · have h := ih t2 (createWorker st)
            (by simp [createWorker]; omega) (by simp [createWorker]; omega) hm2
          simp only [mainLoopWakeup, h2, hc, if_true]
          simp only [createWorker] at h ⊢
          simp at h ⊢
          omega
        · have h := ih t2 st hlo hhi hm2
          simp only [mainLoopWakeup, h2, hc, if_false]
          simp at h ⊢
          omega
      cases sd
      · have hs2 : t.stop = false := by simpa using hs
        have h := key t hs2 hmax
        simp [hs2, mainLoopWakeup] at h ⊢
        exact h
      · simp [hs, mainLoopWakeup, shutdown, hlo, hhi]; omega

/-- C1: one wakeup of the main loop of `Tntnet::run` creates exactly one Worker
and stays in the loop when `stop` is not set and the live worker count is below
`maxthreads`; it creates none and stays in the loop when the count is
`maxthreads` or more; it creates none and leaves the loop when `stop` is set. -/
theorem C1_wakeup_spawns_at_most_one (t : Tntnet) (st : RunState) :
    (t.stop = false → st.countThreads < t.maxthreads →
      (mainLoopWakeup t st).1.created = st.created + 1 ∧
      (mainLoopWakeup t st).1.countThreads = st.countThreads + 1 ∧
      (mainLoopWakeup t st).2 = false) ∧
    (t.stop = false → t.maxthreads ≤ st.countThreads →
      (mainLoopWakeup t st).1 = st ∧ (mainLoopWakeup t st).2 = false) ∧
    (t.stop = true →
      (mainLoopWakeup t st).1 = st ∧ (mainLoopWakeup t st).2 = true) := by
  refine ⟨?_, ?_, ?_⟩
  · intro hs hc
    simp [mainLoopWakeup, hs, hc, createWorker]
  · intro hs hc
    have : ¬ st.countThreads < t.maxthreads := by omega
    simp [mainLoopWakeup, hs, this]
  · intro hs
    simp [mainLoopWakeup, hs]

/-- C1, evaluated: with `maxthreads = 2`, a wakeup at one live worker creates
the second, a wakeup at two live workers creates none, and a wakeup with
`stop` set leaves the loop. -/
theorem C1_wakeup_spawns_at_most_one_witness :
    ((mainLoopWakeup { sampleTntnet with maxthreads := 2 } ⟨1, 1, true, true⟩).1.created = 1 + 1 ∧
      (mainLoopWakeup { sampleTntnet with maxthreads := 2 } ⟨1, 1, true, true⟩).1.countThreads
        = 1 + 1 ∧
      (mainLoopWakeup { sampleTntnet with maxthreads := 2 } ⟨1, 1, true, true⟩).2 = false) ∧
    ((mainLoopWakeup { sampleTntnet with maxthreads := 2 } ⟨2, 2, true, true⟩).1
        = ⟨2, 2, true, true⟩ ∧
      (mainLoopWakeup { sampleTntnet with maxthreads := 2 } ⟨2, 2, true, true⟩).2 = false) ∧
    ((mainLoopWakeup (shutdown { sampleTntnet with maxthreads := 2 }) ⟨1, 1, true, true⟩).1
        = ⟨1, 1, true, true⟩ ∧
      (mainLoopWakeup (shutdown { sampleTntnet with maxthreads := 2 }) ⟨1, 1, true, true⟩).2
        = true) :=
  ⟨(C1_wakeup_spawns_at_most_one { sampleTntnet with maxthreads := 2 } ⟨1, 1, true, true⟩).1
      rfl (by decide),
   (C1_wakeup_spawns_at_most_one { sampleTntnet with maxthreads := 2 } ⟨2, 2, true, true⟩).2.1
      rfl (by decide),
   (C1_wakeup_spawns_at_most_one (shutdown { sampleTntnet with maxthreads := 2 })
      ⟨1, 1, true, true⟩).2.2 rfl⟩

/-- C2, refuted as stated: the configuration `MaxThreads 3` is accepted by
`init` (it leaves `MinThreads` at its default 5), and after the startup spawn
of `run` five workers exist, more than `maxthreads = 3`. -/
theorem C2_counterexample :
    (init (decimalEnv 1000) ⟨[⟨"MaxThreads", ["3"]⟩]⟩ sampleTntnet).2 = none ∧
    (init (decimalEnv 1000) ⟨[⟨"MaxThreads", ["3"]⟩]⟩ sampleTntnet).1.minthreads = 5 ∧
    (init (decimalEnv 1000) ⟨[⟨"MaxThreads", ["3"]⟩]⟩ sampleTntnet).1.maxthreads = 3 ∧
    (runStartup (init (decimalEnv 1000) ⟨[⟨"MaxThreads", ["3"]⟩]⟩ sampleTntnet).1
      RunState.initial).countThreads = 5 ∧
    ¬ ((runStartup (init (decimalEnv 1000) ⟨[⟨"MaxThreads", ["3"]⟩]⟩ sampleTntnet).1
      RunState.initial).countThreads
        ≤ (init (decimalEnv 1000) ⟨[⟨"MaxThreads", ["3"]⟩]⟩ sampleTntnet).1.maxthreads) := by
  decide

/-- C2, amended: for every configuration accepted by `init`, after the startup
spawn of `run` and after every main-loop schedule (no worker retiring), the
number of workers created equals the live count and satisfies
`minthreads ≤ count ≤ max minthreads maxthreads`; in particular
`count ≤ maxthreads` whenever the configuration resolves
`minthreads ≤ maxthreads`. -/
theorem C2_worker_count_bounds (env : Env) (config : Tntconfig) (t0 : Tntnet)
    (sched : List Bool) (_hinit : (init env config t0).2 = none) :
    (mainLoop sched (init env config t0).1
        (runStartup (init env config t0).1 RunState.initial)).2.1.created
      = (mainLoop sched (init env config t0).1
        (runStartup (init env config t0).1 RunState.initial)).2.1.countThreads ∧
    (init env config t0).1.minthreads
      ≤ (mainLoop sched (init env config t0).1
        (runStartup (init env config t0).1 RunState.initial)).2.1.countThreads ∧
    (mainLoop sched (init env config t0).1
        (runStartup (init env config t0).1 RunState.initial)).2.1.countThreads
      ≤ max (init env config t0).1.minthreads (init env config t0).1.maxthreads ∧
    ((init env config t0).1.minthreads ≤ (init env config t0).1.maxthreads →
      (mainLoop sched (init env config t0).1
        (runStartup (init env config t0).1 RunState.initial)).2.1.countThreads
      ≤ (init env config t0).1.maxthreads) := by
  generalize (init env config t0).1 = t
  have hc : (runStartup t RunState.initial).countThreads = t.minthreads := by
    simp [runStartup_countThreads, RunState.initial]
  have hk : (runStartup t RunState.initial).created = t.minthreads := by
    simp [runStartup_created, RunState.initial]
  have h := mainLoop_interval t.minthreads (max t.minthreads t.maxthreads) sched t
    (runStartup t RunState.initial) (by omega) (by rw [hc]; exact le_max_left _ _)
    (le_max_right _ _)
  rw [hc, hk] at h
  refine ⟨by omega, h.1, h.2.1, ?_⟩
  intro hle
  have := h.2.1
  rw [max_eq_right hle] at this
  exact this

/-- C2, evaluated: the empty configuration is accepted, and after startup and
three wakeups without shutdown the count lies between 5 and 100. -/
theorem C2_worker_count_bounds_witness :
    (init (decimalEnv 0) ⟨[]⟩ sampleTntnet).2 = none ∧
    (mainLoop [false, false, false] (init (decimalEnv 0) ⟨[]⟩ sampleTntnet).1
        (runStartup (init (decimalEnv 0) ⟨[]⟩ sampleTntnet).1 RunState.initial)).2.1.created
      = (mainLoop [false, false, false] (init (decimalEnv 0) ⟨[]⟩ sampleTntnet).1
        (runStartup (init (decimalEnv 0) ⟨[]⟩ sampleTntnet).1
          RunState.initial)).2.1.countThreads ∧
    (init (decimalEnv 0) ⟨[]⟩ sampleTntnet).1.minthreads
      ≤ (mainLoop [false, false, false] (init (decimalEnv 0) ⟨[]⟩ sampleTntnet).1
        (runStartup (init (decimalEnv 0) ⟨[]⟩ sampleTntnet).1
          RunState.initial)).2.1.countThreads ∧
    (mainLoop [false, false, false] (init (decimalEnv 0) ⟨[]⟩ sampleTntnet).1
        (runStartup (init (decimalEnv 0) ⟨[]⟩ sampleTntnet).1
          RunState.initial)).2.1.countThreads
      ≤ max (init (decimalEnv 0) ⟨[]⟩ sampleTntnet).1.minthreads
          (init (decimalEnv 0) ⟨[]⟩ sampleTntnet).1.maxthreads ∧
    ((init (decimalEnv 0) ⟨[]⟩ sampleTntnet).1.minthreads
        ≤ (init (decimalEnv 0) ⟨[]⟩ sampleTntnet).1.maxthreads →
      (mainLoop [false, false, false] (init (decimalEnv 0) ⟨[]⟩ sampleTntnet).1
        (runStartup (init (decimalEnv 0) ⟨[]⟩ sampleTntnet).1
          RunState.initial)).2.1.countThreads
      ≤ (init (decimalEnv 0) ⟨[]⟩ sampleTntnet).1.maxthreads) :=
  ⟨by decide, C2_worker_count_bounds (decimalEnv 0) ⟨[]⟩ sampleTntnet [false, false, false]
    (by decide)⟩

/-! ## The lock discipline of `SslRead` and `SslWrite` -/

theorem lockDiscipline_append (tr : List Event) (e : Event)
    (h : lockDiscipline tr)
    (he : (e.isPoll = true → e.mutexHeld = false) ∧ (e.isSslIO = true → e.mutexHeld = true)) :
    lockDiscipline (tr ++ [e]) := by
  intro x hx
  rcases List.mem_append.mp hx with hx | hx
  · exact h x hx
  · rw [List.mem_singleton.mp hx]; exact he

theorem SslRead_step_inv (timeout : Int) (st : SslState ReadPc) (r : Int)
    (h : lockDiscipline st.trace ∧ (st.pc.holdsLock = true → st.locked = true)) :
    lockDiscipline (SslRead.step timeout st r).trace ∧
      ((SslRead.step timeout st r).pc.holdsLock = true →
        (SslRead.step timeout st r).locked = true) := by
  obtain ⟨pc, locked, trace⟩ := st
  obtain ⟨htr, hl⟩ := h
  simp only at htr hl
  cases pc <;>
    simp only [SslRead.step, SslRead.afterTry, SslState.call, SslState.finish] <;>
    (try simp only [ReadPc.holdsLock, forall_true_left] at hl) <;>
    (try subst hl) <;>
    (repeat' split) <;>
    (first
      | exact ⟨htr, by simp [ReadPc.holdsLock]⟩
      | exact ⟨htr, hl⟩
      | exact ⟨lockDiscipline_append _ _ htr (by simp [Event.isPoll, Event.isSslIO]),
          by simp [ReadPc.holdsLock]⟩)

theorem SslWrite_step_inv (bufsize : Int) (st : SslState WritePc) (r : Int)
    (h : lockDiscipline st.trace ∧ (st.pc.holdsLock = true → st.locked = true)) :
    lockDiscipline (SslWrite.step bufsize st r).trace ∧
      ((SslWrite.step bufsize st r).pc.holdsLock = true →
        (SslWrite.step bufsize st r).locked = true) := by
  obtain ⟨pc, locked, trace⟩ := st
  obtain ⟨htr, hl⟩ := h
  simp only at htr hl
  cases pc <;>
    simp only [SslWrite.step, SslState.call, SslState.finish] <;>
    (try simp only [WritePc.holdsLock, forall_true_left] at hl) <;>
    (try subst hl) <;>
    (repeat' split) <;>
    (first
      | exact ⟨htr, by simp [WritePc.holdsLock]⟩
      | exact ⟨htr, hl⟩
      | exact ⟨lockDiscipline_append _ _ htr (by simp [Event.isPoll, Event.isSslIO]),
          by simp [WritePc.holdsLock]⟩)

theorem SslRead_foldl_inv (timeout : Int) (results : List Int) (st : SslState ReadPc)
    (h : lockDiscipline st.trace ∧ (st.pc.holdsLock = true → st.locked = true)) :
    lockDiscipline (results.foldl (SslRead.step timeout) st).trace := by
  induction results generalizing st with
  | nil => exact h.1
  | cons r rest ih => exact ih _ (SslRead_step_inv timeout st r h)

theorem SslWrite_foldl_inv (bufsize : Int) (results : List Int) (st : SslState WritePc)
    (h : lockDiscipline st.trace ∧ (st.pc.holdsLock = true → st.locked = true)) :
    lockDiscipline (results.foldl (SslWrite.step bufsize) st).trace := by
  induction results generalizing st with
  | nil => exact h.1
  | cons r rest ih => exact ih _ (SslWrite_step_inv bufsize st r h)

/-- C3: in every execution of `SslRead` (any timeout) and of `SslWrite` (any
buffer size), against every sequence of results of the external calls, each
`poll` is called with the mutex released and each `SSL_read` / `SSL_write` is
called with the mutex held. -/
theorem C3_mutex_released_across_poll (timeout bufsize : Int) (results : List Int) :
    (∀ e ∈ (SslRead timeout results).trace,
      (e.isPoll = true → e.mutexHeld = false) ∧ (e.isSslIO = true → e.mutexHeld = true)) ∧
    (∀ e ∈ (SslWrite bufsize results).trace,
      (e.isPoll = true → e.mutexHeld = false) ∧ (e.isSslIO = true → e.mutexHeld = true)) := by
  constructor
  · apply SslRead_foldl_inv
    unfold SslRead.start
    split <;>
      exact ⟨lockDiscipline_append _ _ (by intro e he; cases he)
        (by simp [Event.isPoll, Event.isSslIO]), by simp [SslState.call]⟩
  · apply SslWrite_foldl_inv
    exact ⟨lockDiscipline_append _ _ (by intro e he; cases he)
      (by simp [Event.isPoll, Event.isSslIO]), by simp [SslWrite.start, SslState.call]⟩

/-- C3, evaluated: `SslRead` with timeout 100 whose first read wants more input
calls `poll` with the mutex released, and after the poll reports readiness
calls `SSL_read` again with the mutex held. -/
theorem C3_mutex_released_across_poll_witness :
    (⟨Call.poll true false, false⟩ : Event) ∈ (SslRead 100 [0, 2, 2, 1]).trace ∧
    (SslRead 100 [0, 2, 2, 1]).trace.getLast? = some ⟨Call.SSL_read, true⟩ ∧
    (⟨Call.poll true false, false⟩ : Event).mutexHeld = false ∧
    (⟨Call.SSL_read, true⟩ : Event).mutexHeld = true :=
  ⟨by decide, by decide,
   ((C3_mutex_released_across_poll 100 10 [0, 2, 2, 1]).1 ⟨Call.poll true false, false⟩
      (by decide)).1 rfl,
   ((C3_mutex_released_across_poll 100 10 [0, 2, 2, 1]).1 ⟨Call.SSL_read, true⟩
      (by decide)).2 rfl⟩

/-! ## Timeouts of `SslRead` and `SslWrite` -/

theorem SslRead_foldl_done (timeout : Int) (rest : List Int) (st : SslState ReadPc)
    (o : Outcome) (h : st.pc = .done o) :
    rest.foldl (SslRead.step timeout) st = st := by
  induction rest with
  | nil => rfl
  | cons r rest ih =>
    have hstep : SslRead.step timeout st r = st := by simp [SslRead.step, h]
    simp only [List.foldl_cons, hstep, ih]

theorem SslWrite_foldl_done (bufsize : Int) (rest : List Int) (st : SslState WritePc)
    (o : Outcome) (h : st.pc = .done o) :
    rest.foldl (SslWrite.step bufsize) st = st := by
  induction rest with
  | nil => rfl
  | cons r rest ih =>
    have hstep : SslWrite.step bufsize st r = st := by simp [SslWrite.step, h]
    simp only [List.foldl_cons, hstep, ih]

/-- C4: on a stream with timeout 0, when the first `SSL_read` returns `n ≤ 0`
and `SSL_get_error` reports want-read (or want-write, at both of its calls),
`SslRead` throws Timeout; its only external calls are that one `SSL_read` and
the `SSL_get_error` queries: no `poll`, no second `SSL_read`.  Whatever results
would follow are never asked for. -/
theorem C4_zero_timeout_raises_at_once (n : Int) (rest : List Int) (hn : n ≤ 0) :
    ((SslRead 0 (n :: SSL_ERROR_WANT_READ :: rest)).pc = .done .Timeout ∧
      (SslRead 0 (n :: SSL_ERROR_WANT_READ :: rest)).trace
        = [⟨.SSL_read, true⟩, ⟨.SSL_get_error, true⟩] ∧
      (SslRead 0 (n :: SSL_ERROR_WANT_READ :: rest)).trace.countP Event.isPoll = 0 ∧
      (SslRead 0 (n :: SSL_ERROR_WANT_READ :: rest)).trace.countP Event.isSslIO = 1) ∧
    ((SslRead 0 (n :: SSL_ERROR_WANT_WRITE :: SSL_ERROR_WANT_WRITE :: rest)).pc
        = .done .Timeout ∧
      (SslRead 0 (n :: SSL_ERROR_WANT_WRITE :: SSL_ERROR_WANT_WRITE :: rest)).trace
        = [⟨.SSL_read, true⟩, ⟨.SSL_get_error, true⟩, ⟨.SSL_get_error, true⟩] ∧
      (SslRead 0 (n :: SSL_ERROR_WANT_WRITE :: SSL_ERROR_WANT_WRITE :: rest)).trace.countP
        Event.isPoll = 0 ∧
      (SslRead 0 (n :: SSL_ERROR_WANT_WRITE :: SSL_ERROR_WANT_WRITE :: rest)).trace.countP
        Event.isSslIO = 1) := by
  have hn2 : ¬ n > 0 := by omega
  have h1 : SslRead 0 (n :: SSL_ERROR_WANT_READ :: rest)
      = ⟨.done .Timeout, false, [⟨.SSL_read, true⟩, ⟨.SSL_get_error, true⟩]⟩ := by
    simp only [SslRead, List.foldl_cons]
    rw [SslRead_foldl_done 0 rest _ .Timeout]
    · simp [SslRead.step, SslRead.start, SslRead.afterTry, SslState.call, SslState.finish, hn2]
    · simp [SslRead.step, SslRead.start, SslRead.afterTry, SslState.call, SslState.finish, hn2]
  have h2 : SslRead 0 (n :: SSL_ERROR_WANT_WRITE :: SSL_ERROR_WANT_WRITE :: rest)
      = ⟨.done .Timeout, false,
          [⟨.SSL_read, true⟩, ⟨.SSL_get_error, true⟩, ⟨.SSL_get_error, true⟩]⟩ := by
    simp only [SslRead, List.foldl_cons]
    rw [SslRead_foldl_done 0 rest _ .Timeout]
    · simp [SslRead.step, SslRead.start, SslRead.afterTry, SslState.call, SslState.finish, hn2,
        SSL_ERROR_WANT_WRITE, SSL_ERROR_WANT_READ]
    · simp [SslRead.step, SslRead.start, SslRead.afterTry, SslState.call, SslState.finish, hn2,
        SSL_ERROR_WANT_WRITE, SSL_ERROR_WANT_READ]
  rw [h1, h2]
  simp [Event.isPoll, Event.isSslIO]

/-- C4, evaluated: first read returns -1 with want-read pending, and the three
results that would follow are never consumed. -/
theorem C4_zero_timeout_raises_at_once_witness :
    (SslRead 0 (-1 :: SSL_ERROR_WANT_READ :: [1, 7, 0])).pc = .done .Timeout ∧
    (SslRead 0 (-1 :: SSL_ERROR_WANT_READ :: [1, 7, 0])).trace.countP Event.isPoll = 0 ∧
    (SslRead 0 (-1 :: SSL_ERROR_WANT_READ :: [1, 7, 0])).trace.countP Event.isSslIO = 1 :=
  ⟨(C4_zero_timeout_raises_at_once (-1) [1, 7, 0] (by decide)).1.1,
   (C4_zero_timeout_raises_at_once (-1) [1, 7, 0] (by decide)).1.2.2.1,
   (C4_zero_timeout_raises_at_once (-1) [1, 7, 0] (by decide)).1.2.2.2⟩

/-- C5: whenever the results so far leave `SslRead` or `SslWrite` waiting in
`poll` and that `poll` returns 0, the operation ends by throwing Timeout and
makes no further external call (the trace is the one it had when it entered
`poll`), whatever results would follow; so it returns no byte count. -/
theorem C5_poll_timeout_raises (timeout bufsize : Int) (rs rest : List Int) :
    (∀ n, (SslRead timeout rs).pc = .poll n →
      (SslRead timeout (rs ++ 0 :: rest)).pc = .done .Timeout ∧
      (SslRead timeout (rs ++ 0 :: rest)).trace = (SslRead timeout rs).trace) ∧
    (∀ offset s, (SslWrite bufsize rs).pc = .poll offset s →
      (SslWrite bufsize (rs ++ 0 :: rest)).pc = .done .Timeout ∧
      (SslWrite bufsize (rs ++ 0 :: rest)).trace = (SslWrite bufsize rs).trace) := by
  constructor
  · intro n h
    have hstep : SslRead.step timeout (SslRead timeout rs) 0
        = (SslRead timeout rs).finish (.done .Timeout) := by
      simp [SslRead.step, h]
    simp only [SslRead, List.foldl_append, List.foldl_cons] at hstep ⊢
    rw [hstep, SslRead_foldl_done timeout rest _ .Timeout (by simp [SslState.finish])]
    simp [SslState.finish]
  · intro offset s h
    have hstep : SslWrite.step bufsize (SslWrite bufsize rs) 0
        = { SslWrite bufsize rs with locked := true }.finish (.done .Timeout) := by
      simp [SslWrite.step, h]
    simp only [SslWrite, List.foldl_append, List.foldl_cons] at hstep ⊢
    rw [hstep, SslWrite_foldl_done bufsize rest _ .Timeout (by simp [SslState.finish])]
    simp [SslState.finish]

/-- C5, evaluated: `SslRead` (timeout 100) and `SslWrite` (10 bytes, 5 written)
each reach `poll`; the poll returns 0 and both end in Timeout although a
positive result would have followed. -/
theorem C5_poll_timeout_raises_witness :
    ((SslRead 100 [0, 2, 2]).pc = .poll 0 ∧
      (SslRead 100 ([0, 2, 2] ++ 0 :: [7, 0])).pc = .done .Timeout ∧
      (SslRead 100 ([0, 2, 2] ++ 0 :: [7, 0])).trace = (SslRead 100 [0, 2, 2]).trace) ∧
    ((SslWrite 10 [5, 0, 0]).pc = .poll 5 5 ∧
      (SslWrite 10 ([5, 0, 0] ++ 0 :: [7, 0])).pc = .done .Timeout ∧
      (SslWrite 10 ([5, 0, 0] ++ 0 :: [7, 0])).trace = (SslWrite 10 [5, 0, 0]).trace) :=
  ⟨⟨by decide, (C5_poll_timeout_raises 100 10 [0, 2, 2] [7, 0]).1 0 (by decide)⟩,
   ⟨by decide, (C5_poll_timeout_raises 100 10 [5, 0, 0] [7, 0]).2 5 5 (by decide)⟩⟩

/-! ## Lookups in the configuration store -/

theorem getConfigValues_eq_filter (c : Tntconfig) (key : String) (ret : List ConfigEntry) :
    c.getConfigValues key ret = ret ++ c.config_entries.filter (fun e => decide (e.key = key)) := by
  obtain ⟨es⟩ := c
  simp only [Tntconfig.getConfigValues]
  induction es generalizing ret with
  | nil => simp
  | cons e rest ih =>
    by_cases h : e.key = key
    · simp [List.foldl_cons, h, ih, List.filter_cons]
    · simp [List.foldl_cons, h, ih, List.filter_cons]

theorem getConfigValues_insert (pre post : List ConfigEntry) (e : ConfigEntry) (key : String)
    (ret : List ConfigEntry) (h : e.key ≠ key) :
    Tntconfig.getConfigValues ⟨pre ++ e :: post⟩ key ret
      = Tntconfig.getConfigValues ⟨pre ++ post⟩ key ret := by
  simp [getConfigValues_eq_filter, List.filter_cons, h]

theorem getValue_insert (pre post : List ConfigEntry) (e : ConfigEntry) (key dflt : String)
    (h : e.key ≠ key) :
    Tntconfig.getValue ⟨pre ++ e :: post⟩ key dflt = Tntconfig.getValue ⟨pre ++ post⟩ key dflt := by
  simp only [Tntconfig.getValue]
  induction pre with
  | nil => simp [Tntconfig.getValueLoop, h]
  | cons x rest ih => simp only [List.cons_append, Tntconfig.getValueLoop, List.append_eq, ih]

theorem configureDispatcherLoop_insert (pre post : List ConfigEntry) (e : ConfigEntry)
    (dis : List UrlMapEntry) (h1 : e.key ≠ "MapUrl") (h2 : e.key ≠ "VMapUrl") :
    configureDispatcherLoop (pre ++ e :: post) dis = configureDispatcherLoop (pre ++ post) dis := by
  induction pre generalizing dis with
  | nil => simp [configureDispatcherLoop, h1, h2]
  | cons x rest ih => simp only [List.cons_append, configureDispatcherLoop, List.append_eq, ih]

/-! ## configureDispatcher -/

theorem configureDispatcherLoop_MapUrl (v : ConfigEntry) (rest : List ConfigEntry)
    (dis : List UrlMapEntry) (hM : v.key = "MapUrl") (hl : ¬ v.params.length < 2) :
    ∃ r : UrlMapEntry,
      configureDispatcherLoop (v :: rest) dis = configureDispatcherLoop rest (dis ++ [r]) ∧
      (r.vhost, r.url, r.ci.ident) = ("", v.params.getD 0 "", v.params.getD 1 "") := by
  refine ⟨_, by simp only [configureDispatcherLoop, hM, hl, if_true, if_false]; rfl, ?_⟩
  simp only [Prod.mk.injEq, true_and]
  split <;> (try split) <;> rfl

theorem configureDispatcherLoop_VMapUrl (v : ConfigEntry) (rest : List ConfigEntry)
    (dis : List UrlMapEntry) (hV : v.key = "VMapUrl") (hl : ¬ v.params.length < 3) :
    ∃ r : UrlMapEntry,
      configureDispatcherLoop (v :: rest) dis = configureDispatcherLoop rest (dis ++ [r]) ∧
      (r.vhost, r.url, r.ci.ident)
        = (v.params.getD 0 "", v.params.getD 1 "", v.params.getD 2 "") := by
  have hVM : ¬ v.key = "MapUrl" := by rw [hV]; decide
  refine ⟨_, by simp only [configureDispatcherLoop, hVM, hV, hl, if_true, if_false]; rfl, ?_⟩
  simp only [Prod.mk.injEq, true_and]
  split <;> (try split) <;> rfl

theorem configureDispatcherLoop_spec (es : List ConfigEntry) (dis : List UrlMapEntry) :
    ((configureDispatcherLoop es dis).2 ≠ none ↔
      ∃ e ∈ es, (e.key = "MapUrl" ∧ e.params.length < 2) ∨
        (e.key = "VMapUrl" ∧ e.params.length < 3)) ∧
    ((configureDispatcherLoop es dis).2 = none →
      ∃ rules, (configureDispatcherLoop es dis).1 = dis ++ rules ∧
        rules.map (fun r => (r.vhost, r.url, r.ci.ident))
          = (es.filter (fun e => decide (e.key = "MapUrl" ∨ e.key = "VMapUrl"))).map
              (fun e => if e.key = "MapUrl" then ("", e.params.getD 0 "", e.params.getD 1 "")
                else (e.params.getD 0 "", e.params.getD 1 "", e.params.getD 2 ""))) := by
  induction es generalizing dis with
  | nil => simp [configureDispatcherLoop]
  | cons v rest ih =>
    have hVM : ("VMapUrl" : String) ≠ "MapUrl" := by decide
    by_cases hM : v.key = "MapUrl"
    · by_cases hl : v.params.length < 2
      · simp [configureDispatcherLoop, hM, hl]
      · obtain ⟨r, hr, hp⟩ := configureDispatcherLoop_MapUrl v rest dis hM hl
        obtain ⟨ih1, ih2⟩ := ih (dis ++ [r])
        rw [hr]
        constructor
        · rw [ih1]; simp [hM, hl]
        · intro hn
          obtain ⟨rules, hr1, hr2⟩ := ih2 hn
          refine ⟨r :: rules, by rw [hr1]; simp, ?_⟩
          simp [List.filter_cons, hM, hr2, hp]
    · by_cases hV : v.key = "VMapUrl"
      · by_cases hl : v.params.length < 3
        · simp [configureDispatcherLoop, hV, hl, hVM]
        · obtain ⟨r, hr, hp⟩ := configureDispatcherLoop_VMapUrl v rest dis hV hl
          obtain ⟨ih1, ih2⟩ := ih (dis ++ [r])
          rw [hr]
          constructor
          · rw [ih1]; simp [hV, hl, hVM]
          · intro hn
            obtain ⟨rules, hr1, hr2⟩ := ih2 hn
            refine ⟨r :: rules, by rw [hr1]; simp, ?_⟩
            simp [List.filter_cons, hV, hVM, hr2, hp]
      · obtain ⟨ih1, ih2⟩ := ih dis
        simp only [configureDispatcherLoop, hM, hV, if_false]
        constructor
        · rw [ih1]; simp [hM, hV]
        · intro hn
          obtain ⟨rules, hr1, hr2⟩ := ih2 hn
          exact ⟨rules, hr1, by simp [hr2, List.filter_cons, hM, hV]⟩

/-! ## The listeners created by `init` -/

theorem initListenLoop_empty (env : Env) (it : ConfigEntry) (rest : List ConfigEntry)
    (ls : List ListenerObj) (hE : it.params.isEmpty = true) :
    initListenLoop env (it :: rest) ls = (ls, some "empty Listen-entry") := by
  simp only [initListenLoop, hE, if_true]

theorem initListenLoop_badPort (env : Env) (it : ConfigEntry) (rest : List ConfigEntry)
    (ls : List ListenerObj) (hE : ¬ it.params.isEmpty = true) (h2 : it.params.length ≥ 2)
    (hp : env.asPort (it.params.getD 1 "") = none) :
    initListenLoop env (it :: rest) ls = (ls, some ("invalid port " ++ it.params.getD 1 "")) := by
  simp only [initListenLoop, hE, h2, hp, if_true, if_false, Bool.false_eq_true]

theorem initListenLoop_port (env : Env) (it : ConfigEntry) (rest : List ConfigEntry)
    (ls : List ListenerObj) (port : Nat) (hE : ¬ it.params.isEmpty = true)
    (h2 : it.params.length ≥ 2) (hp : env.asPort (it.params.getD 1 "") = some port) :
    initListenLoop env (it :: rest) ls
      = initListenLoop env rest (ls ++ [ListenerObj.listener (it.params.getD 0 "") port]) := by
  simp only [initListenLoop, hE, h2, hp, if_true, if_false, Bool.false_eq_true]

theorem initListenLoop_default (env : Env) (it : ConfigEntry) (rest : List ConfigEntry)
    (ls : List ListenerObj) (hE : ¬ it.params.isEmpty = true) (h2 : ¬ it.params.length ≥ 2) :
    initListenLoop env (it :: rest) ls
      = initListenLoop env rest (ls ++ [ListenerObj.listener (it.params.getD 0 "") 80]) := by
  simp only [initListenLoop, hE, h2, if_true, if_false, Bool.false_eq_true]

theorem initListenLoop_prefix (env : Env) (es : List ConfigEntry) (ls : List ListenerObj) :
    ∃ k new, (initListenLoop env es ls).1 = ls ++ new ∧
      List.Forall₂ (fromListen env) (es.take k) new ∧
      ((initListenLoop env es ls).2 = none → k = es.length) := by
  induction es generalizing ls with
  | nil => exact ⟨0, [], by simp [initListenLoop]⟩
  | cons it rest ih =>
    by_cases hE : it.params.isEmpty = true
    · exact ⟨0, [], by simp [initListenLoop_empty env it rest ls hE]⟩
    · by_cases h2 : it.params.length ≥ 2
      · cases hp : env.asPort (it.params.getD 1 "") with
        | none => exact ⟨0, [], by simp [initListenLoop_badPort env it rest ls hE h2 hp]⟩
        | some port =>
          obtain ⟨k, new, e1, e2, e3⟩ :=
            ih (ls ++ [ListenerObj.listener (it.params.getD 0 "") port])
          rw [initListenLoop_port env it rest ls port hE h2 hp]
          refine ⟨k + 1, ListenerObj.listener (it.params.getD 0 "") port :: new, ?_, ?_, ?_⟩
          · rw [e1]; simp
          · simp only [List.take_succ_cons]
            exact List.Forall₂.cons ⟨port, rfl, fun _ => hp, fun h => by omega⟩ e2
          · intro hn
            simp [e3 hn]
      · obtain ⟨k, new, e1, e2, e3⟩ :=
          ih (ls ++ [ListenerObj.listener (it.params.getD 0 "") 80])
        rw [initListenLoop_default env it rest ls hE h2]
        refine ⟨k + 1, ListenerObj.listener (it.params.getD 0 "") 80 :: new, ?_, ?_, ?_⟩
        · rw [e1]; simp
        · simp only [List.take_succ_cons]
          exact List.Forall₂.cons ⟨80, rfl, fun h => absurd h h2, fun _ => rfl⟩ e2
        · intro hn
          simp [e3 hn]

theorem initListenLoop_ok (env : Env) (es : List ConfigEntry) (ls : List ListenerObj)
    (hv : ∀ e ∈ es, e.params ≠ [] ∧
      (2 ≤ e.params.length → env.asPort (e.params.getD 1 "") ≠ none)) :
    (initListenLoop env es ls).2 = none := by
  induction es generalizing ls with
  | nil => simp [initListenLoop]
  | cons it rest ih =>
    obtain ⟨hne, hport⟩ := hv it (List.mem_cons_self _ _)
    have hrest := fun ls => ih ls (fun e he => hv e (List.mem_cons_of_mem _ he))
    have hE : ¬ it.params.isEmpty = true := by simpa [List.isEmpty_iff] using hne
    by_cases h2 : it.params.length ≥ 2
    · cases hp : env.asPort (it.params.getD 1 "") with
      | none => exact absurd hp (hport h2)
      | some port => rw [initListenLoop_port env it rest ls port hE h2 hp]; exact hrest _
    · rw [initListenLoop_default env it rest ls hE h2]; exact hrest _

theorem sslFiles_cases (n : Nat) (p2 p3 dc dk : String) :
    (n < 3 → (if n ≥ 3 then p2 else dc) = dc ∧
      (if n ≥ 4 then p3 else if n ≥ 3 then p2 else dk) = dk) ∧
    (n = 3 → (if n ≥ 3 then p2 else dc) = p2 ∧
      (if n ≥ 4 then p3 else if n ≥ 3 then p2 else dk) = p2) ∧
    (4 ≤ n → (if n ≥ 3 then p2 else dc) = p2 ∧
      (if n ≥ 4 then p3 else if n ≥ 3 then p2 else dk) = p3) := by
  refine ⟨fun h => ?_, fun h => ?_, fun h => ?_⟩
  · have h3 : ¬ n ≥ 3 := by omega
    have h4 : ¬ n ≥ 4 := by omega
    simp only [h3, h4, if_false, and_self]
  · subst h
    simp
  · have h3 : n ≥ 3 := by omega
    have h4 : n ≥ 4 := by omega
    simp only [h3, h4, if_true, and_self]

theorem initSslListenLoop_cons (env : Env) (dc dk : String) (it : ConfigEntry)
    (rest : List ConfigEntry) (ls : List ListenerObj) (hE : ¬ it.params.isEmpty = true) :
    initSslListenLoop env dc dk (it :: rest) ls =
      match (if it.params.length ≥ 2 then env.asPort (it.params.getD 1 "") else some 443) with
      | none => (ls, some ("invalid port " ++ it.params.getD 1 ""))
      | some port =>
        if (if it.params.length ≥ 3 then it.params.getD 2 "" else dc) = "" then
          (ls, some "Ssl-certificate not configured")
        else
          initSslListenLoop env dc dk rest
            (ls ++ [ListenerObj.ssllistener
              (if it.params.length ≥ 3 then it.params.getD 2 "" else dc)
              (if it.params.length ≥ 4 then it.params.getD 3 ""
                else if it.params.length ≥ 3 then it.params.getD 2 "" else dk)
              (it.params.getD 0 "") port]) := by
  simp only [initSslListenLoop, hE, if_false, Bool.false_eq_true]

theorem initSslListenLoop_prefix (env : Env) (dc dk : String) (es : List ConfigEntry)
    (ls : List ListenerObj) :
    ∃ k new, (initSslListenLoop env dc dk es ls).1 = ls ++ new ∧
      List.Forall₂ (fun e l => fromSslListen env e l ∧ sslFilesOf dc dk e l) (es.take k) new ∧
      ((initSslListenLoop env dc dk es ls).2 = none → k = es.length) := by
  induction es generalizing ls with
  | nil => exact ⟨0, [], by simp [initSslListenLoop]⟩
  | cons it rest ih =>
    by_cases hE : it.params.isEmpty = true
    · exact ⟨0, [], by simp [initSslListenLoop, hE]⟩
    · rw [initSslListenLoop_cons env dc dk it rest ls hE]
      cases hpo : (if it.params.length ≥ 2 then env.asPort (it.params.getD 1 "") else some 443) with
      | none => exact ⟨0, [], by simp⟩
      | some port =>
        by_cases hc : (if it.params.length ≥ 3 then it.params.getD 2 "" else dc) = ""
        · exact ⟨0, [], by simp only [hc, if_true]; simp⟩
        · obtain ⟨k, new, e1, e2, e3⟩ := ih (ls ++ [ListenerObj.ssllistener
              (if it.params.length ≥ 3 then it.params.getD 2 "" else dc)
              (if it.params.length ≥ 4 then it.params.getD 3 ""
                else if it.params.length ≥ 3 then it.params.getD 2 "" else dk)
              (it.params.getD 0 "") port])
          simp only [hc, if_false]
          refine ⟨k + 1, ListenerObj.ssllistener
              (if it.params.length ≥ 3 then it.params.getD 2 "" else dc)
              (if it.params.length ≥ 4 then it.params.getD 3 ""
                else if it.params.length ≥ 3 then it.params.getD 2 "" else dk)
              (it.params.getD 0 "") port :: new,
            by rw [e1, List.append_assoc]; rfl, ?_, fun hn => by rw [e3 hn]; rfl⟩
          simp only [List.take_succ_cons]
          refine List.Forall₂.cons ⟨⟨port, _, _, rfl, fun h => ?_, fun h => ?_⟩,
            ⟨port, _, _, _, rfl, hc, sslFiles_cases _ _ _ _ _⟩⟩ e2
          · simpa [h] using hpo
          · have h2 : ¬ it.params.length ≥ 2 := by omega
            simp only [h2, if_false, Option.some.injEq] at hpo
            exact hpo.symm

theorem initSslListenLoop_ok (env : Env) (dc dk : String) (es : List ConfigEntry)
    (ls : List ListenerObj)
    (hv : ∀ e ∈ es, e.params ≠ [] ∧
      (2 ≤ e.params.length → env.asPort (e.params.getD 1 "") ≠ none) ∧
      (if e.params.length ≥ 3 then e.params.getD 2 "" else dc) ≠ "") :
    (initSslListenLoop env dc dk es ls).2 = none := by
  induction es generalizing ls with
  | nil => simp [initSslListenLoop]
  | cons it rest ih =>
    obtain ⟨hne, hport, hcert⟩ := hv it (List.mem_cons_self _ _)
    have hrest := fun ls => ih ls (fun e he => hv e (List.mem_cons_of_mem _ he))
    have hE : ¬ it.params.isEmpty = true := by simpa [List.isEmpty_iff] using hne
    rw [initSslListenLoop_cons env dc dk it rest ls hE]
    cases hpo : (if it.params.length ≥ 2 then env.asPort (it.params.getD 1 "") else some 443) with
    | none =>
      by_cases h2 : it.params.length ≥ 2
      · simp only [h2, if_true] at hpo
        exact absurd hpo (hport h2)
      · simp [h2] at hpo
    | some port => simp only [hcert, if_false]; exact hrest _

theorem init_listeners_eq (env : Env) (config : Tntconfig) (t : Tntnet) :
    (init env config t).1.listeners =
      if (configureDispatcher t.d_dispatcher config).2 = none then
        if (initListeners env config t.listeners).2 = none then
          (initSslListeners env config (initListeners env config t.listeners).1).1
        else (initListeners env config t.listeners).1
      else t.listeners := by
  simp only [init, initSettings]
  rcases hd : configureDispatcher t.d_dispatcher config with ⟨dis, _ | m⟩
  · simp only [if_true]
    rcases hl : initListeners env config t.listeners with ⟨ls, _ | m⟩
    · simp only [if_true]
      rcases hs : initSslListeners env config ls with ⟨ls2, _ | m⟩ <;> simp [initHttp]
    · simp
  · simp

theorem init_error_eq (env : Env) (config : Tntconfig) (t : Tntnet) :
    (init env config t).2 = none ↔
      (configureDispatcher t.d_dispatcher config).2 = none ∧
      (initListeners env config t.listeners).2 = none ∧
      (initSslListeners env config (initListeners env config t.listeners).1).2 = none := by
  simp only [init, initSettings]
  rcases hd : configureDispatcher t.d_dispatcher config with ⟨dis, _ | m⟩
  · rcases hl : initListeners env config t.listeners with ⟨ls, _ | m⟩
    · rcases hs : initSslListeners env config ls with ⟨ls2, _ | m⟩ <;> simp [hs]
    · simp
  · simp

theorem forall₂_right_all {α β : Type} (R : α → β → Prop) (P : β → Prop)
    (hR : ∀ a b, R a b → P b) (as : List α) (bs : List β) (h : List.Forall₂ R as bs) :
    ∀ b ∈ bs, P b := by
  induction h with
  | nil => intro b hb; cases hb
  | cons hab _ ih =>
    intro b hb
    rcases List.mem_cons.mp hb with rfl | hb
    · exact hR _ _ hab
    · exact ih b hb

theorem forall₂_weaken {α β : Type} (R S : α → β → Prop) (hRS : ∀ a b, R a b → S a b)
    (as : List α) (bs : List β) (h : List.Forall₂ R as bs) : List.Forall₂ S as bs := by
  induction h with
  | nil => exact List.Forall₂.nil
  | cons hab _ ih => exact List.Forall₂.cons (hRS _ _ hab) ih

/-- The TLS block of `init`: it appends TLS listeners only, one for each of the
first `k` `SslListen` entries, and all of them when it does not throw. -/
theorem initSslListeners_prefix (env : Env) (config : Tntconfig) (ls : List ListenerObj) :
    ∃ k ssl, (initSslListeners env config ls).1 = ls ++ ssl ∧
      List.Forall₂ (fun e l => fromSslListen env e l ∧
          sslFilesOf (config.getValue "SslCertificate" "") (config.getValue "SslKey" "") e l)
        ((config.getConfigValues "SslListen" []).take k) ssl ∧
      ((initSslListeners env config ls).2 = none →
        k = (config.getConfigValues "SslListen" []).length) := by
  simp only [initSslListeners, USE_SSL, if_true]
  exact initSslListenLoop_prefix env _ _ _ ls

theorem fromSslListen_isSsl (env : Env) (e : ConfigEntry) (l : ListenerObj)
    (h : fromSslListen env e l) : l.isSsl = true := by
  obtain ⟨port, cert, key, rfl, _⟩ := h
  rfl

theorem fromListen_not_isSsl (env : Env) (e : ConfigEntry) (l : ListenerObj)
    (h : fromListen env e l) : l.isSsl = false := by
  obtain ⟨port, rfl, _⟩ := h
  rfl

theorem initListeners_of_empty (env : Env) (config : Tntconfig) (ls : List ListenerObj)
    (h : config.getConfigValues "Listen" [] = []) :
    initListeners env config ls
      = (ls ++ [ListenerObj.listener "0.0.0.0" (if env.uid = 0 then 80 else 8000)], none) := by
  simp only [initListeners, h, List.isEmpty_nil, if_true]

theorem initListeners_of_nonempty (env : Env) (config : Tntconfig) (ls : List ListenerObj)
    (h : config.getConfigValues "Listen" [] ≠ []) :
    initListeners env config ls
      = initListenLoop env (config.getConfigValues "Listen" []) ls := by
  have hE : ¬ (config.getConfigValues "Listen" []).isEmpty = true := by
    simpa [List.isEmpty_iff] using h
  simp only [initListeners, hE, if_false, Bool.false_eq_true]

theorem getConfigValues_eq_nil_iff (config : Tntconfig) (key : String) :
    config.getConfigValues key [] = [] ↔ ∀ e ∈ config.config_entries, e.key ≠ key := by
  simp [getConfigValues_eq_filter, List.filter_eq_nil_iff]

theorem mem_getConfigValues (config : Tntconfig) (key : String) (e : ConfigEntry) :
    e ∈ config.getConfigValues key [] ↔ e ∈ config.config_entries ∧ e.key = key := by
  simp [getConfigValues_eq_filter]

/-- C6, refuted as stated: the configuration with the single entry `MapUrl x`
has no `Listen` entry, yet `init` creates no listener at all: it ends in the
exception of `configureDispatcher` before it reaches the listeners. -/
theorem C6_counterexample :
    (∀ e ∈ (⟨[⟨"MapUrl", ["x"]⟩]⟩ : Tntconfig).config_entries, e.key ≠ "Listen") ∧
    (init (decimalEnv 0) ⟨[⟨"MapUrl", ["x"]⟩]⟩ sampleTntnet).2
      = some "invalid number of parameters (1) in MapUrl" ∧
    (init (decimalEnv 0) ⟨[⟨"MapUrl", ["x"]⟩]⟩ sampleTntnet).1.listeners = [] := by
  decide

/-- C6, amended: for every configuration with no `Listen` entry on which
`configureDispatcher` does not throw, `init` creates exactly one plaintext
listener, on ip 0.0.0.0 and port 80 for uid 0, else 8000 (all further listeners
it creates are TLS listeners); for every configuration with at least one
`Listen` entry every plaintext listener `init` creates stems from a `Listen`
entry, in order: none is synthesized. -/
theorem C6_default_listener (env : Env) (config : Tntconfig) (t : Tntnet) :
    ((∀ e ∈ config.config_entries, e.key ≠ "Listen") →
      (configureDispatcher t.d_dispatcher config).2 = none →
      ∃ ssl, (init env config t).1.listeners
          = t.listeners ++ ListenerObj.listener "0.0.0.0" (if env.uid = 0 then 80 else 8000) :: ssl ∧
        ∀ l ∈ ssl, l.isSsl = true) ∧
    ((∃ e ∈ config.config_entries, e.key = "Listen") →
      ∃ k plain ssl, (init env config t).1.listeners = t.listeners ++ plain ++ ssl ∧
        List.Forall₂ (fromListen env) ((config.getConfigValues "Listen" []).take k) plain ∧
        ∀ l ∈ ssl, l.isSsl = true) := by
  constructor
  · intro hno hd
    have hnil := (getConfigValues_eq_nil_iff config "Listen").mpr hno
    rw [init_listeners_eq, if_pos hd, initListeners_of_empty env config _ hnil]
    simp only [if_true]
    obtain ⟨k, ssl, e1, e2, _⟩ := initSslListeners_prefix env config
      (t.listeners ++ [ListenerObj.listener "0.0.0.0" (if env.uid = 0 then 80 else 8000)])
    refine ⟨ssl, by rw [e1, List.append_assoc]; rfl, ?_⟩
    exact forall₂_right_all _ _ (fun a b h => fromSslListen_isSsl env a b h.1) _ _ e2
  · rintro ⟨e, he, hk⟩
    have hne : config.getConfigValues "Listen" [] ≠ [] := by
      intro h
      exact (getConfigValues_eq_nil_iff config "Listen").mp h e he hk
    rw [init_listeners_eq, initListeners_of_nonempty env config _ hne]
    obtain ⟨k, plain, p1, p2, _⟩ :=
      initListenLoop_prefix env (config.getConfigValues "Listen" []) t.listeners
    by_cases hd : (configureDispatcher t.d_dispatcher config).2 = none
    · rw [if_pos hd]
      by_cases hl : (initListenLoop env (config.getConfigValues "Listen" []) t.listeners).2 = none
      · rw [if_pos hl]
        obtain ⟨j, ssl, e1, e2, _⟩ := initSslListeners_prefix env config
          (initListenLoop env (config.getConfigValues "Listen" []) t.listeners).1
        refine ⟨k, plain, ssl, by rw [e1, p1], p2, ?_⟩
        exact forall₂_right_all _ _ (fun a b h => fromSslListen_isSsl env a b h.1) _ _ e2
      · rw [if_neg hl]
        exact ⟨k, plain, [], by rw [p1]; simp, p2, by intro l hl; cases hl⟩
    · rw [if_neg hd]
      exact ⟨0, [], [], by simp, by simp, by intro l hl; cases hl⟩

/-- C6, evaluated: the empty configuration under uid 0 gives the one listener
0.0.0.0:80, and a configuration with a `Listen` entry gives only listeners that
stem from `Listen` entries. -/
theorem C6_default_listener_witness :
    (∃ ssl, (init (decimalEnv 0) ⟨[]⟩ sampleTntnet).1.listeners
        = sampleTntnet.listeners ++ ListenerObj.listener "0.0.0.0"
            (if (decimalEnv 0).uid = 0 then 80 else 8000) :: ssl ∧
      ∀ l ∈ ssl, l.isSsl = true) ∧
    (∃ k plain ssl,
      (init (decimalEnv 0) ⟨[⟨"Listen", ["127.0.0.1", "9101"]⟩]⟩ sampleTntnet).1.listeners
        = sampleTntnet.listeners ++ plain ++ ssl ∧
      List.Forall₂ (fromListen (decimalEnv 0))
        ((Tntconfig.getConfigValues ⟨[⟨"Listen", ["127.0.0.1", "9101"]⟩]⟩ "Listen" []).take k)
        plain ∧
      ∀ l ∈ ssl, l.isSsl = true) :=
  ⟨(C6_default_listener (decimalEnv 0) ⟨[]⟩ sampleTntnet).1
      (by intro e he; cases he) (by decide),
   (C6_default_listener (decimalEnv 0) ⟨[⟨"Listen", ["127.0.0.1", "9101"]⟩]⟩ sampleTntnet).2
      ⟨⟨"Listen", ["127.0.0.1", "9101"]⟩, by decide, by decide⟩⟩

/-- C7, refuted as stated: in the configuration `MapUrl x`, `Listen 1.2.3.4`
the one `Listen` entry has a parameter and needs no port, and there is no
`SslListen` entry; yet `init` throws in `configureDispatcher` and creates no
listener. -/
theorem C7_counterexample :
    (∀ e ∈ (⟨[⟨"MapUrl", ["x"]⟩, ⟨"Listen", ["1.2.3.4"]⟩]⟩ : Tntconfig).config_entries,
      (e.key = "Listen" ∨ e.key = "SslListen") →
        e.params ≠ [] ∧
        (2 ≤ e.params.length → (decimalEnv 0).asPort (e.params.getD 1 "") ≠ none)) ∧
    (∀ e ∈ (⟨[⟨"MapUrl", ["x"]⟩, ⟨"Listen", ["1.2.3.4"]⟩]⟩ : Tntconfig).config_entries,
      e.key ≠ "SslListen") ∧
    (init (decimalEnv 0) ⟨[⟨"MapUrl", ["x"]⟩, ⟨"Listen", ["1.2.3.4"]⟩]⟩ sampleTntnet).2 ≠ none ∧
    (init (decimalEnv 0) ⟨[⟨"MapUrl", ["x"]⟩, ⟨"Listen", ["1.2.3.4"]⟩]⟩
      sampleTntnet).1.listeners = [] := by
  decide

/-- C7, amended: for every configuration on which `configureDispatcher` does
not throw and in which each `Listen` and `SslListen` entry has at least one
parameter, a port that extracts when given, and (for `SslListen`) a non-empty
certificate file (its third parameter, else the `SslCertificate` value), `init`
returns normally and has created, after the default listener when there is no
`Listen` entry, exactly one plaintext listener per `Listen` entry and then one
TLS listener per `SslListen` entry, in configuration order: the ip is the
entry's first parameter, the port the extraction of its second parameter when
present, otherwise 80 for `Listen` and 443 for `SslListen`. -/
theorem C7_one_listener_per_entry (env : Env) (config : Tntconfig) (t : Tntnet)
    (hd : (configureDispatcher t.d_dispatcher config).2 = none)
    (hl : ∀ e ∈ config.config_entries, (e.key = "Listen" ∨ e.key = "SslListen") →
      e.params ≠ [] ∧ (2 ≤ e.params.length → env.asPort (e.params.getD 1 "") ≠ none))
    (hc : ∀ e ∈ config.config_entries, e.key = "SslListen" →
      (if e.params.length ≥ 3 then e.params.getD 2 ""
        else config.getValue "SslCertificate" "") ≠ "") :
    (init env config t).2 = none ∧
    ∃ plain ssl,
      (init env config t).1.listeners
        = t.listeners ++
          (if config.getConfigValues "Listen" [] = [] then
            [ListenerObj.listener "0.0.0.0" (if env.uid = 0 then 80 else 8000)] else []) ++
          plain ++ ssl ∧
      List.Forall₂ (fromListen env) (config.getConfigValues "Listen" []) plain ∧
      List.Forall₂ (fromSslListen env) (config.getConfigValues "SslListen" []) ssl := by
  -- the plaintext block returns normally and yields one listener per `Listen` entry
  have hplain : (initListeners env config t.listeners).2 = none ∧
      ∃ plain, (initListeners env config t.listeners).1
          = t.listeners ++
            (if config.getConfigValues "Listen" [] = [] then
              [ListenerObj.listener "0.0.0.0" (if env.uid = 0 then 80 else 8000)] else []) ++
            plain ∧
        List.Forall₂ (fromListen env) (config.getConfigValues "Listen" []) plain := by
    by_cases hnil : config.getConfigValues "Listen" [] = []
    · rw [initListeners_of_empty env config _ hnil, hnil]
      exact ⟨rfl, [], by simp, List.Forall₂.nil⟩
    · rw [initListeners_of_nonempty env config _ hnil]
      have hok := initListenLoop_ok env (config.getConfigValues "Listen" []) t.listeners
        (fun e he => hl e ((mem_getConfigValues config "Listen" e).mp he).1
          (Or.inl ((mem_getConfigValues config "Listen" e).mp he).2))
      obtain ⟨k, plain, p1, p2, p3⟩ :=
        initListenLoop_prefix env (config.getConfigValues "Listen" []) t.listeners
      rw [p3 hok, List.take_length] at p2
      exact ⟨hok, plain, by rw [p1]; simp [hnil], p2⟩
  obtain ⟨hlok, plain, hp1, hp2⟩ := hplain
  -- the TLS block returns normally and yields one listener per `SslListen` entry
  have hsok : (initSslListeners env config (initListeners env config t.listeners).1).2 = none := by
    simp only [initSslListeners, USE_SSL, if_true]
    exact initSslListenLoop_ok env _ _ _ _
      (fun e he =>
        ⟨(hl e ((mem_getConfigValues config "SslListen" e).mp he).1
            (Or.inr ((mem_getConfigValues config "SslListen" e).mp he).2)).1,
         (hl e ((mem_getConfigValues config "SslListen" e).mp he).1
            (Or.inr ((mem_getConfigValues config "SslListen" e).mp he).2)).2,
         hc e ((mem_getConfigValues config "SslListen" e).mp he).1
            ((mem_getConfigValues config "SslListen" e).mp he).2⟩)
  obtain ⟨k, ssl, s1, s2, s3⟩ :=
    initSslListeners_prefix env config (initListeners env config t.listeners).1
  rw [s3 hsok, List.take_length] at s2
  refine ⟨(init_error_eq env config t).mpr ⟨hd, hlok, hsok⟩, plain, ssl, ?_, hp2, ?_⟩
  · rw [init_listeners_eq, if_pos hd, if_pos hlok, s1, hp1]
  · exact forall₂_weaken _ _ (fun a b h => h.1) _ _ s2

/-- C7, evaluated: `Listen 127.0.0.1 9101`, `Listen 10.0.0.1` and
`SslListen 0.0.0.0 8443 cert.pem` are accepted and give three listeners. -/
theorem C7_one_listener_per_entry_witness :
    (init (decimalEnv 0)
      ⟨[⟨"Listen", ["127.0.0.1", "9101"]⟩, ⟨"Listen", ["10.0.0.1"]⟩,
        ⟨"SslListen", ["0.0.0.0", "8443", "cert.pem"]⟩]⟩ sampleTntnet).2 = none ∧
    (init (decimalEnv 0)
      ⟨[⟨"Listen", ["127.0.0.1", "9101"]⟩, ⟨"Listen", ["10.0.0.1"]⟩,
        ⟨"SslListen", ["0.0.0.0", "8443", "cert.pem"]⟩]⟩ sampleTntnet).1.listeners
      = [ListenerObj.listener "127.0.0.1" 9101, ListenerObj.listener "10.0.0.1" 80,
         ListenerObj.ssllistener "cert.pem" "cert.pem" "0.0.0.0" 8443] :=
  ⟨(C7_one_listener_per_entry (decimalEnv 0)
      ⟨[⟨"Listen", ["127.0.0.1", "9101"]⟩, ⟨"Listen", ["10.0.0.1"]⟩,
        ⟨"SslListen", ["0.0.0.0", "8443", "cert.pem"]⟩]⟩ sampleTntnet
      (by decide) (by decide) (by decide)).1,
   by decide⟩

/-- C8, refuted as stated: with `SslKey default.key` configured, the entry
`SslListen 0.0.0.0 443 site.pem` gives no key parameter (3 parameters), yet the
key file `init` passes to the TLS listener is `site.pem`, the entry's
certificate, not the `SslKey` value. -/
theorem C8_counterexample :
    (Tntconfig.getValue
      ⟨[⟨"SslCertificate", ["default.pem"]⟩, ⟨"SslKey", ["default.key"]⟩,
        ⟨"SslListen", ["0.0.0.0", "443", "site.pem"]⟩]⟩ "SslKey" "") = "default.key" ∧
    (init (decimalEnv 0)
      ⟨[⟨"SslCertificate", ["default.pem"]⟩, ⟨"SslKey", ["default.key"]⟩,
        ⟨"SslListen", ["0.0.0.0", "443", "site.pem"]⟩]⟩ sampleTntnet).2 = none ∧
    (init (decimalEnv 0)
      ⟨[⟨"SslCertificate", ["default.pem"]⟩, ⟨"SslKey", ["default.key"]⟩,
        ⟨"SslListen", ["0.0.0.0", "443", "site.pem"]⟩]⟩ sampleTntnet).1.listeners
      = [ListenerObj.listener "0.0.0.0" 80,
         ListenerObj.ssllistener "site.pem" "site.pem" "0.0.0.0" 443] ∧
    ("site.pem" : String) ≠ "default.key" := by
  decide

/-- C8, amended: the TLS listeners `init` creates follow its plaintext
listeners and stem, in order, from the first `k` `SslListen` entries (all of
them when `init` returns normally).  For an entry with fewer than 3 parameters
the certificate file is the `SslCertificate` value and the key file is the
`SslKey` value; for an entry with exactly 3 parameters both the certificate
file and the key file are its third parameter; with 4 or more they are its
third and fourth parameter. -/
theorem C8_ssl_certificate_and_key (env : Env) (config : Tntconfig) (t : Tntnet) :
    ∃ k plain ssl,
      (init env config t).1.listeners = t.listeners ++ plain ++ ssl ∧
      (∀ l ∈ plain, l.isSsl = false) ∧
      List.Forall₂
        (sslFilesOf (config.getValue "SslCertificate" "") (config.getValue "SslKey" ""))
        ((config.getConfigValues "SslListen" []).take k) ssl ∧
      ((init env config t).2 = none → k = (config.getConfigValues "SslListen" []).length) := by
  by_cases hd : (configureDispatcher t.d_dispatcher config).2 = none
  · -- the plaintext listeners
    have hplain : ∃ plain, (initListeners env config t.listeners).1 = t.listeners ++ plain ∧
        ∀ l ∈ plain, l.isSsl = false := by
      by_cases hnil : config.getConfigValues "Listen" [] = []
      · rw [initListeners_of_empty env config _ hnil]
        exact ⟨_, rfl, by
          intro l hl
          rw [List.mem_singleton.mp hl]
          rfl⟩
      · rw [initListeners_of_nonempty env config _ hnil]
        obtain ⟨j, plain, p1, p2, _⟩ :=
          initListenLoop_prefix env (config.getConfigValues "Listen" []) t.listeners
        exact ⟨plain, p1,
          forall₂_right_all _ _ (fun a b h => fromListen_not_isSsl env a b h) _ _ p2⟩
    obtain ⟨plain, hp1, hp2⟩ := hplain
    by_cases hl : (initListeners env config t.listeners).2 = none
    · obtain ⟨k, ssl, s1, s2, s3⟩ :=
        initSslListeners_prefix env config (initListeners env config t.listeners).1
      refine ⟨k, plain, ssl, ?_, hp2, forall₂_weaken _ _ (fun a b h => h.2) _ _ s2, ?_⟩
      · rw [init_listeners_eq, if_pos hd, if_pos hl, s1, hp1]
      · intro hn
        exact s3 ((init_error_eq env config t).mp hn).2.2
    · refine ⟨0, plain, [], ?_, hp2, by simp, ?_⟩
      · rw [init_listeners_eq, if_pos hd, if_neg hl, hp1]; simp
      · intro hn
        exact absurd ((init_error_eq env config t).mp hn).2.1 hl
  · refine ⟨0, [], [], ?_, fun l hl => absurd hl (List.not_mem_nil l), by simp, ?_⟩
    · rw [init_listeners_eq, if_neg hd]; simp
    · intro hn
      exact absurd ((init_error_eq env config t).mp hn).1 hd

/-- C8, evaluated: `SslListen 0.0.0.0` (one parameter) with `SslCertificate`
and `SslKey` configured is accepted, and all `SslListen` entries (`k = 1`) have
their TLS listener. -/
theorem C8_ssl_certificate_and_key_witness :
    ∃ k plain ssl,
      (init (decimalEnv 0)
        ⟨[⟨"SslCertificate", ["default.pem"]⟩, ⟨"SslKey", ["default.key"]⟩,
          ⟨"SslListen", ["0.0.0.0"]⟩]⟩ sampleTntnet).1.listeners
        = sampleTntnet.listeners ++ plain ++ ssl ∧
      (∀ l ∈ plain, l.isSsl = false) ∧
      List.Forall₂ (sslFilesOf "default.pem" "default.key")
        ([(⟨"SslListen", ["0.0.0.0"]⟩ : ConfigEntry)].take k) ssl ∧
      k = 1 :=
  match C8_ssl_certificate_and_key (decimalEnv 0)
      ⟨[⟨"SslCertificate", ["default.pem"]⟩, ⟨"SslKey", ["default.key"]⟩,
        ⟨"SslListen", ["0.0.0.0"]⟩]⟩ sampleTntnet with
  | ⟨k, plain, ssl, h1, h2, h3, h4⟩ => ⟨k, plain, ssl, h1, h2, h3, h4 (by decide)⟩

/-! ## The rules added by `configureDispatcher` -/

/-- C9: `configureDispatcher` throws exactly when some `MapUrl` entry has fewer
than 2 parameters or some `VMapUrl` entry has fewer than 3; when it returns, it
has made one `addUrlMapEntry` call per `MapUrl` / `VMapUrl` entry, in
configuration order, with empty vhost, url `params[0]` and component
`params[1]` for `MapUrl`, and vhost `params[0]`, url `params[1]` and component
`params[2]` for `VMapUrl`. -/
theorem C9_configureDispatcher_rules (dis : List UrlMapEntry) (config : Tntconfig) :
    ((configureDispatcher dis config).2 ≠ none ↔
      ∃ e ∈ config.config_entries, (e.key = "MapUrl" ∧ e.params.length < 2) ∨
        (e.key = "VMapUrl" ∧ e.params.length < 3)) ∧
    ((configureDispatcher dis config).2 = none →
      ∃ rules, (configureDispatcher dis config).1 = dis ++ rules ∧
        rules.map (fun r => (r.vhost, r.url, r.ci.ident))
          = (config.config_entries.filter
              (fun e => decide (e.key = "MapUrl" ∨ e.key = "VMapUrl"))).map
              (fun e => if e.key = "MapUrl" then ("", e.params.getD 0 "", e.params.getD 1 "")
                else (e.params.getD 0 "", e.params.getD 1 "", e.params.getD 2 ""))) :=
  configureDispatcherLoop_spec config.config_entries dis

/-- C9, evaluated: a `VMapUrl` entry with two parameters makes
`configureDispatcher` throw; a configuration with a `MapUrl`, an unrelated and
a `VMapUrl` entry yields the two rules in order. -/
theorem C9_configureDispatcher_rules_witness :
    (configureDispatcher [] ⟨[⟨"MapUrl", ["^/$", "index"]⟩, ⟨"VMapUrl", ["host", "^/a"]⟩]⟩).2
      ≠ none ∧
    (configureDispatcher []
      ⟨[⟨"MapUrl", ["^/$", "index"]⟩, ⟨"MinThreads", ["2"]⟩,
        ⟨"VMapUrl", ["host", "^/a", "comp", "pi"]⟩]⟩).2 = none ∧
    ∃ rules, (configureDispatcher []
      ⟨[⟨"MapUrl", ["^/$", "index"]⟩, ⟨"MinThreads", ["2"]⟩,
        ⟨"VMapUrl", ["host", "^/a", "comp", "pi"]⟩]⟩).1 = [] ++ rules ∧
      rules.map (fun r => (r.vhost, r.url, r.ci.ident))
        = [("", "^/$", "index"), ("host", "^/a", "comp")] :=
  ⟨(C9_configureDispatcher_rules []
      ⟨[⟨"MapUrl", ["^/$", "index"]⟩, ⟨"VMapUrl", ["host", "^/a"]⟩]⟩).1.mpr
      ⟨⟨"VMapUrl", ["host", "^/a"]⟩, by decide, by decide⟩,
   by decide,
   (C9_configureDispatcher_rules []
      ⟨[⟨"MapUrl", ["^/$", "index"]⟩, ⟨"MinThreads", ["2"]⟩,
        ⟨"VMapUrl", ["host", "^/a", "comp", "pi"]⟩]⟩).2 (by decide)⟩

/-! ## Unknown keys -/

/-- C10: an entry whose key is not in the configuration table, inserted at any
position of any configuration, changes nothing of what `init` does: the same
exception or normal return, and the same resulting state (thread bounds, start
delay, queue capacity, timeouts, environment assignments, dispatcher rules,
listeners and every other setting). -/
theorem C10_unknown_keys_ignored (env : Env) (pre post : List ConfigEntry) (e : ConfigEntry)
    (t : Tntnet) (h : e.key ∉ recognizedKeys) :
    init env ⟨pre ++ e :: post⟩ t = init env ⟨pre ++ post⟩ t := by
  simp only [recognizedKeys, List.mem_cons, List.mem_singleton, not_or, List.not_mem_nil,
    not_false_eq_true, and_true] at h
  obtain ⟨h1, h2, h3, h4, h5, h6, h7, h8, h9, h10, h11, h12, h13, h14, h15, h16, h17, h18,
    h19, h20, h21, h22, h23, h24, h25⟩ := h
  have hd := fun dis => configureDispatcherLoop_insert pre post e dis h24 h25
  simp only [init, initSettings, initHttp, initListeners, initSslListeners, configureDispatcher,
    Tntconfig.getValueT, hd,
    getValue_insert pre post e _ _ h1, getValue_insert pre post e _ _ h2,
    getValue_insert pre post e _ _ h3, getValue_insert pre post e _ _ h4,
    getValue_insert pre post e _ _ h5, getValue_insert pre post e _ _ h6,
    getValue_insert pre post e _ _ h7, getValue_insert pre post e _ _ h8,
    getValue_insert pre post e _ _ h9, getValue_insert pre post e _ _ h10,
    getValue_insert pre post e _ _ h11, getValue_insert pre post e _ _ h12,
    getValue_insert pre post e _ _ h13, getValue_insert pre post e _ _ h14,
    getValue_insert pre post e _ _ h15, getValue_insert pre post e _ _ h16,
    getValue_insert pre post e _ _ h17, getValue_insert pre post e _ _ h18,
    getValue_insert pre post e _ _ h21, getValue_insert pre post e _ _ h22,
    getConfigValues_insert pre post e _ _ h19, getConfigValues_insert pre post e _ _ h20,
    getConfigValues_insert pre post e _ _ h23]

/-- C10, evaluated: the key `Load` is not in the table; adding a `Load` entry
between `MaxThreads 7` and `Listen 127.0.0.1 9101` leaves `init` unchanged. -/
theorem C10_unknown_keys_ignored_witness :
    init (decimalEnv 0)
        ⟨[⟨"MaxThreads", ["7"]⟩] ++ ⟨"Load", ["app"]⟩ :: [⟨"Listen", ["127.0.0.1", "9101"]⟩]⟩
        sampleTntnet
      = init (decimalEnv 0)
        ⟨[⟨"MaxThreads", ["7"]⟩] ++ [⟨"Listen", ["127.0.0.1", "9101"]⟩]⟩ sampleTntnet :=
  C10_unknown_keys_ignored (decimalEnv 0) [⟨"MaxThreads", ["7"]⟩]
    [⟨"Listen", ["127.0.0.1", "9101"]⟩] ⟨"Load", ["app"]⟩ sampleTntnet (by decide)

/-! ## The configuration store as an ordered multi-map -/

theorem setConfigValue_foldl_entries (c0 : Tntconfig) (calls : List (String × List String)) :
    (calls.foldl (fun c kv => c.setConfigValue kv.1 kv.2) c0).config_entries
      = c0.config_entries ++ calls.map (fun kv => (⟨kv.1, kv.2⟩ : ConfigEntry)) := by
  induction calls generalizing c0 with
  | nil => simp
  | cons kv rest ih =>
    simp only [List.foldl_cons, List.map_cons]
    rw [ih]
    simp [Tntconfig.setConfigValue]

/-- C11: after any sequence of `setConfigValue` calls on a store, empty or not,
`getConfigValues(key, ret)` returns `ret` followed by exactly the entries whose
key is `key`, those already in the store and then one per matching call, in the
order they were set: repeated keys are all kept and `ret` is a prefix of the
result. -/
theorem C11_ordered_multimap (c0 : Tntconfig) (calls : List (String × List String))
    (key : String) (ret : List ConfigEntry) :
    (calls.foldl (fun c kv => c.setConfigValue kv.1 kv.2) c0).getConfigValues key ret
        = ret ++ c0.config_entries.filter (fun e => decide (e.key = key))
            ++ (calls.filter (fun kv => decide (kv.1 = key))).map
                (fun kv => (⟨kv.1, kv.2⟩ : ConfigEntry)) ∧
    (calls.foldl (fun c kv => c.setConfigValue kv.1 kv.2) (⟨[]⟩ : Tntconfig)).getConfigValues
        key ret
        = ret ++ (calls.filter (fun kv => decide (kv.1 = key))).map
                (fun kv => (⟨kv.1, kv.2⟩ : ConfigEntry)) := by
  have hmap : ∀ l : List (String × List String),
      (l.map (fun kv => (⟨kv.1, kv.2⟩ : ConfigEntry))).filter (fun e => decide (e.key = key))
        = (l.filter (fun kv => decide (kv.1 = key))).map
            (fun kv => (⟨kv.1, kv.2⟩ : ConfigEntry)) := by
    intro l
    induction l with
    | nil => rfl
    | cons kv rest ih =>
      by_cases h : kv.1 = key
      · simp [List.filter_cons, h, ih]
      · simp [List.filter_cons, h, ih]
  constructor
  · rw [getConfigValues_eq_filter, setConfigValue_foldl_entries, List.filter_append, hmap,
      List.append_assoc]
  · rw [getConfigValues_eq_filter, setConfigValue_foldl_entries, List.filter_append, hmap]
    simp

/-! ## The shutdown flag -/

theorem init_stop (env : Env) (config : Tntconfig) (t : Tntnet) :
    (init env config t).1.stop = t.stop := by
  simp only [init, initSettings]
  rcases configureDispatcher t.d_dispatcher config with ⟨dis, _ | m⟩
  · rcases initListeners env config t.listeners with ⟨ls, _ | m⟩
    · rcases hs : initSslListeners env config ls with ⟨ls2, _ | m⟩ <;> simp [hs, initHttp]
    · simp
  · simp

theorem mainLoop_quiet (sched : List Bool) (t : Tntnet) (st : RunState)
    (h : ∀ b ∈ sched, b = false) : (mainLoop sched t st).1 = t := by
  induction sched generalizing st with
  | nil => rfl
  | cons sd rest ih =>
    have hsd : sd = false := h sd (List.mem_cons_self _ _)
    have hrest : ∀ b ∈ rest, b = false := fun b hb => h b (List.mem_cons_of_mem _ hb)
    subst hsd
    unfold mainLoop
    by_cases hs : t.stop = true
    · simp [hs]
    · simp [hs, mainLoopWakeup]
      exact ih _ hrest

theorem timerTask_stop {σ : Type} (f g : σ → σ) (ticks : Nat) (t : Tntnet) (st : RunState)
    (c : σ) : (timerTask f g ticks t st c).1.stop = t.stop := by
  induction ticks generalizing t c with
  | zero => rfl
  | succ n ih =>
    unfold timerTask
    by_cases hs : t.stop = true
    · simp [hs, timerTaskExit]
    · rw [if_neg hs, ih]
      rfl

/-- C13: the flag `Tntnet::stop` is initialized to false; `shutdown()` sets it,
and calling it twice gives the same state as calling it once, with
`shouldStop()` true.  Nothing else writes the flag: `init` leaves it as it
was, whether it returns or throws; the main loop of `run`, over any number of
wakeups during which no other thread calls `shutdown()`, leaves the `Tntnet`
object unchanged; a timer tick, and the whole of `timerTask`, leave the flag
unchanged. -/
theorem C13_shutdown_flag {σ : Type} (env : Env) (config : Tntconfig) (t : Tntnet)
    (sched : List Bool) (st : RunState) (f g : σ → σ) (c : σ) (ticks : Nat) :
    stopInitializer = false ∧
    (shutdown t).stop = true ∧
    shutdown (shutdown t) = shutdown t ∧
    shouldStop (shutdown (shutdown t)) = true ∧
    (init env config t).1.stop = t.stop ∧
    ((∀ b ∈ sched, b = false) → (mainLoop sched t st).1.stop = t.stop) ∧
    (timerTick f g t c).1.stop = t.stop ∧
    (timerTask f g ticks t st c).1.stop = t.stop :=
  ⟨rfl, rfl, rfl, rfl, init_stop env config t,
    fun h => by rw [mainLoop_quiet sched t st h], rfl, timerTask_stop f g ticks t st c⟩

/-- C13, evaluated: three wakeups of the main loop without a `shutdown()` call
leave the flag of a running core false. -/
theorem C13_shutdown_flag_witness :
    (mainLoop [false, false, false] sampleTntnet RunState.initial).1.stop = sampleTntnet.stop :=
  (C13_shutdown_flag (decimalEnv 0) ⟨[]⟩ sampleTntnet [false, false, false] RunState.initial
    (fun n : Nat => n) (fun n : Nat => n) 0 0).2.2.2.2.2.1 (by decide)

/-! ## Comments after a token -/

/-- C14, evaluated on the code: fed `k t #c` and a newline, the parser calls
`onLine` once, with `(k, [t])`; fed `k t#c` and a newline, it calls `onLine`
twice, with `(k, [t])` and then with `(c, [])`: after a token, `#` leads to
`state_cmd` instead of `state_comment`, and the comment text is read as the
key of a further line.  With an empty comment the further line has the empty
key. -/
theorem C14_hash_after_token_starts_command :
    (ConfigParser.feed ConfigParser.fresh "k t #c\n".data).2 = [⟨"k", ["t"]⟩] ∧
    (ConfigParser.feed ConfigParser.fresh "k t#c\n".data).2 = [⟨"k", ["t"]⟩, ⟨"c", []⟩] ∧
    (ConfigParser.feed ConfigParser.fresh "k t#\n".data).2 = [⟨"k", ["t"]⟩, ⟨"", []⟩] ∧
    (ConfigParser.feed ConfigParser.fresh "k t#".data).1.state = state_cmd ∧
    (ConfigParser.feed ConfigParser.fresh "k t #".data).1.state = state_comment ∧
    (ConfigParser.feed ConfigParser.fresh "k #".data).1.state = state_comment := by
  decide

/-! ## Feeding the parser -/

theorem feed_append (p : ConfigParser) (a b : List Char) :
    ConfigParser.feed p (a ++ b)
      = ((ConfigParser.feed (ConfigParser.feed p a).1 b).1,
         (ConfigParser.feed p a).2 ++ (ConfigParser.feed (ConfigParser.feed p a).1 b).2) := by
  induction a generalizing p with
  | nil => simp [ConfigParser.feed]
  | cons ch rest ih => simp [ConfigParser.feed, ih, List.append_assoc]

theorem feed_cons (p : ConfigParser) (ch : Char) (rest : List Char) :
    ConfigParser.feed p (ch :: rest)
      = ((ConfigParser.feed (p.parse ch).1 rest).1,
         (p.parse ch).2.toList ++ (ConfigParser.feed (p.parse ch).1 rest).2) := rfl

theorem isspace_newline (ch : Char) (h : isspace ch = false) : ch ≠ '\n' := by
  intro hc
  subst hc
  exact absurd h (by decide)

/-- In `state_cmd`, characters that are neither whitespace nor `#` extend the key. -/
theorem feed_cmd_chars (cs cmd : List Char) (ps : List String) (tk : List Char)
    (h : ∀ ch ∈ cs, isspace ch = false ∧ ch ≠ '#') :
    ConfigParser.feed ⟨state_cmd, cmd, ps, tk⟩ cs = (⟨state_cmd, cmd ++ cs, ps, tk⟩, []) := by
  induction cs generalizing cmd with
  | nil => simp [ConfigParser.feed]
  | cons ch rest ih =>
    obtain ⟨h1, h2⟩ := h ch (List.mem_cons_self _ _)
    have h3 := isspace_newline ch h1
    have hstep : ConfigParser.parse ⟨state_cmd, cmd, ps, tk⟩ ch
        = (⟨state_cmd, cmd ++ [ch], ps, tk⟩, none) := by
      simp [ConfigParser.parse, h1, h2, h3]
    rw [feed_cons, hstep, ih _ (fun c hc => h c (List.mem_cons_of_mem _ hc))]
    simp

/-- Inside a quoted string, the escaped text of a parameter appends the
parameter itself to the token. -/
theorem feed_escapeParam (d cmd : List Char) (ps : List String) (tk : List Char) :
    ConfigParser.feed ⟨state_qstring, cmd, ps, tk⟩ (escapeParam d)
      = (⟨state_qstring, cmd, ps, tk ++ d⟩, []) := by
  induction d generalizing tk with
  | nil => simp [escapeParam, ConfigParser.feed]
  | cons ch rest ih =>
    by_cases hq : ch = '"' ∨ ch = '\\'
    · have h1 : ConfigParser.parse ⟨state_qstring, cmd, ps, tk⟩ '\\'
          = (⟨state_qstring_esc, cmd, ps, tk⟩, none) := by
        simp [ConfigParser.parse]
      have h2 : ConfigParser.parse ⟨state_qstring_esc, cmd, ps, tk⟩ ch
          = (⟨state_qstring, cmd, ps, tk ++ [ch]⟩, none) := by
        simp [ConfigParser.parse]
      simp only [escapeParam, hq, if_true, List.cons_append, List.nil_append]
      rw [feed_cons, h1, feed_cons, h2, ih]
      simp
    · have hq1 : ch ≠ '"' := fun h => hq (Or.inl h)
      have hq2 : ch ≠ '\\' := fun h => hq (Or.inr h)
      have h1 : ConfigParser.parse ⟨state_qstring, cmd, ps, tk⟩ ch
          = (⟨state_qstring, cmd, ps, tk ++ [ch]⟩, none) := by
        simp [ConfigParser.parse, hq1, hq2]
      simp only [escapeParam, hq, if_false, List.cons_append, List.nil_append]
      rw [feed_cons, h1, ih]
      simp

/-- From `state_args` with an empty token, a quoted parameter is pushed onto
`current_params` as it was before quoting. -/
theorem feed_quoteParam (d cmd : List Char) (ps : List String) :
    ConfigParser.feed ⟨state_args, cmd, ps, []⟩ (quoteParam d)
      = (⟨state_args, cmd, ps ++ [String.mk d], []⟩, []) := by
  have h1 : ConfigParser.parse ⟨state_args, cmd, ps, []⟩ '"'
      = (⟨state_qstring, cmd, ps, []⟩, none) := by
    simp [ConfigParser.parse]
  have h2 : ConfigParser.parse ⟨state_qstring, cmd, ps, d⟩ '"'
      = (⟨state_args, cmd, ps ++ [String.mk d], []⟩, none) := by
    simp [ConfigParser.parse]
  simp only [quoteParam, List.cons_append]
  rw [feed_cons, h1, feed_append, feed_escapeParam]
  simp only [List.nil_append]
  rw [feed_cons, h2]
  simp [ConfigParser.feed]

/-- From `state_args` with an empty token, the quoted parameters are pushed
onto `current_params` in order. -/
theorem feed_quoteParams (params : List String) (cmd : List Char) (ps : List String) :
    ConfigParser.feed ⟨state_args, cmd, ps, []⟩ (quoteParams params)
      = (⟨state_args, cmd, ps ++ params, []⟩, []) := by
  induction params generalizing ps with
  | nil => simp [quoteParams, ConfigParser.feed]
  | cons param rest ih =>
    have h1 : ConfigParser.parse ⟨state_args, cmd, ps, []⟩ ' '
        = (⟨state_args, cmd, ps, []⟩, none) := by
      simp [ConfigParser.parse, isspace]
    simp only [quoteParams, List.cons_append]
    rw [feed_cons, h1, feed_append, feed_quoteParam, ih]
    simp

/-- C15: for every non-empty key without whitespace and without `#`, and
every list of parameter strings, feeding a fresh parser the line made of the
key, a space and the quoted parameter for each parameter, and a newline makes
exactly one `onLine` call, with the key and the original parameters in order,
and leaves the parser in the start state with empty buffers. -/
theorem C15_quoting_round_trip (key : String) (params : List String)
    (hne : key.data ≠ [])
    (hkey : ∀ ch ∈ key.data, isspace ch = false ∧ ch ≠ '#') :
    ConfigParser.feed ConfigParser.fresh (quoteLine key params)
      = (ConfigParser.fresh, [⟨key, params⟩]) := by
  obtain ⟨data⟩ := key
  cases data with
  | nil => exact absurd rfl hne
  | cons c cs =>
    obtain ⟨hc1, hc2⟩ := hkey c (List.mem_cons_self _ _)
    have hcs : ∀ ch ∈ cs, isspace ch = false ∧ ch ≠ '#' :=
      fun ch h => hkey ch (List.mem_cons_of_mem _ h)
    have h0 : ConfigParser.parse ConfigParser.fresh c = (⟨state_cmd, [c], [], []⟩, none) := by
      simp [ConfigParser.parse, ConfigParser.fresh, hc1, hc2]
    have hnl : ∀ (st : state_type) (cmd : List Char) (ps : List String),
        st = state_cmd ∨ st = state_args →
        ConfigParser.parse ⟨st, cmd, ps, []⟩ '\n'
          = (ConfigParser.fresh, some ⟨String.mk cmd, ps⟩) := by
      intro st cmd ps h
      rcases h with h | h <;> subst h <;>
        simp [ConfigParser.parse, ConfigParser.onLineAndClear, ConfigParser.fresh]
    simp only [quoteLine, List.cons_append, List.append_assoc]
    rw [feed_cons, h0, feed_append, feed_cmd_chars cs [c] [] [] hcs]
    cases params with
    | nil =>
      simp only [quoteParams, List.nil_append]
      rw [feed_cons, hnl _ _ _ (Or.inl rfl)]
      simp [ConfigParser.feed]
    | cons q rest =>
      have hsp : ∀ cmd : List Char, ConfigParser.parse ⟨state_cmd, cmd, [], []⟩ ' '
          = (⟨state_args, cmd, [], []⟩, none) := by
        intro cmd
        simp [ConfigParser.parse, isspace]
      simp only [quoteParams, List.cons_append, List.append_assoc]
      rw [feed_cons, hsp, feed_append, feed_quoteParam, feed_append, feed_quoteParams,
        feed_cons, hnl _ _ _ (Or.inr rfl)]
      simp [ConfigParser.feed]

/-- C15, evaluated: a key with parameters that hold a space, a quote and a
backslash, nothing at all, and a newline with a `#`. -/
theorem C15_quoting_round_trip_witness :
    ConfigParser.feed ConfigParser.fresh
        (quoteLine "MapUrl" ["a b", "c\"d\\", "", "x\n#y"])
      = (ConfigParser.fresh, [⟨"MapUrl", ["a b", "c\"d\\", "", "x\n#y"]⟩]) :=
  C15_quoting_round_trip "MapUrl" ["a b", "c\"d\\", "", "x\n#y"] (by decide) (by decide)

/-! ## TntconfigParser::parse on texts without include directive -/

theorem parseChar_no_include (files : String → Option (List Char)) (b : ConfigParser)
    (streams : List (List Char)) (c : Tntconfig) (ch : Char)
    (h : ∀ l ∈ (b.parse ch).2.toList, ¬ (l.key = "include" ∧ l.params.length = 1)) :
    TntconfigParser.parseChar files ⟨b, streams, c⟩ ch
      = (⟨(b.parse ch).1, streams, ⟨c.config_entries ++ (b.parse ch).2.toList⟩⟩, none) := by
  rcases hp : b.parse ch with ⟨q, _ | line⟩
  · simp [TntconfigParser.parseChar, hp]
  · have hl : ¬ (line.key = "include" ∧ line.params.length = 1) := by
      apply h
      simp [hp]
    simp [TntconfigParser.parseChar, hp, TntconfigParser.onLine, TntconfigParser.checkInclude,
      hl, Tntconfig.setConfigValue]

theorem parseLoop_single (files : String → Option (List Char)) (text : List Char)
    (b : ConfigParser) (c : Tntconfig) (fuel : Nat) (hfuel : text.length + 2 ≤ fuel)
    (hinc : ∀ l ∈ (ConfigParser.feed b (text ++ ['\n'])).2,
      ¬ (l.key = "include" ∧ l.params.length = 1)) :
    TntconfigParser.parseLoop files fuel ⟨b, [text], c⟩
      = some (⟨(ConfigParser.feed b (text ++ ['\n'])).1, [],
          ⟨c.config_entries ++ (ConfigParser.feed b (text ++ ['\n'])).2⟩⟩, none) := by
  induction text generalizing b c fuel with
  | nil =>
    obtain ⟨f, rfl⟩ : ∃ f, fuel = f + 2 := ⟨fuel - 2, by simp at hfuel; omega⟩
    have hstep := parseChar_no_include files b [[]] c '\n'
      (fun l hl => hinc l (by simpa [ConfigParser.feed] using hl))
    simp [TntconfigParser.parseLoop, hstep, ConfigParser.feed]
  | cons ch rest ih =>
    obtain ⟨f, rfl⟩ : ∃ f, fuel = f + 1 := ⟨fuel - 1, by simp at hfuel; omega⟩
    have hstep := parseChar_no_include files b [rest] c ch
      (fun l hl => hinc l (by
        simp only [List.cons_append, feed_cons, List.mem_append]
        exact Or.inl hl))
    have hrec := ih (b.parse ch).1 ⟨c.config_entries ++ (b.parse ch).2.toList⟩ f
      (by simp at hfuel ⊢; omega)
      (fun l hl => hinc l (by
        simp only [List.cons_append, feed_cons, List.mem_append]
        exact Or.inr hl))
    simp only [TntconfigParser.parseLoop, hstep, hrec, List.cons_append, feed_cons,
      List.append_assoc]

theorem parse_newline_state (p : ConfigParser) :
    (p.parse '\n').1.state = state_start ↔
      ¬ (p.state = state_qstring ∨ p.state = state_qstring_esc ∨ p.state = state_args_esc) := by
  obtain ⟨st, cmd, ps, tk⟩ := p
  cases st <;> simp [ConfigParser.parse, ConfigParser.onLineAndClear, isspace]

/-- The outcome of `TntconfigParser::parse` by the state in which the lexer
stands at the end of the text, for a text on which the lexer makes no `onLine`
call with key `include` and one parameter: whatever the file system and for
every fuel of at least the length of the text plus 2, `parse` ends; it throws
"parse error while reading config" exactly when that state is `state_qstring`,
`state_qstring_esc` or `state_args_esc`, and otherwise returns normally in
`state_start`, the store holding the lines the lexer emitted, in order. -/
theorem TntconfigParser_parse_by_final_state (files : String → Option (List Char)) (c : Tntconfig)
    (text : List Char) (fuel : Nat) (hfuel : text.length + 2 ≤ fuel)
    (hinc : ∀ l ∈ (ConfigParser.feed ConfigParser.fresh (text ++ ['\n'])).2,
      ¬ (l.key = "include" ∧ l.params.length = 1)) :
    ∃ p err, TntconfigParser.parse files fuel (TntconfigParser.fresh c) text = some (p, err) ∧
      (err = some "parse error while reading config" ↔
        ((ConfigParser.feed ConfigParser.fresh text).1.state = state_qstring ∨
         (ConfigParser.feed ConfigParser.fresh text).1.state = state_qstring_esc ∨
         (ConfigParser.feed ConfigParser.fresh text).1.state = state_args_esc)) ∧
      (err = none ↔
        ¬ ((ConfigParser.feed ConfigParser.fresh text).1.state = state_qstring ∨
           (ConfigParser.feed ConfigParser.fresh text).1.state = state_qstring_esc ∨
           (ConfigParser.feed ConfigParser.fresh text).1.state = state_args_esc)) ∧
      (err = none → p.state = state_start) ∧
      p.config = ⟨c.config_entries ++ (ConfigParser.feed ConfigParser.fresh (text ++ ['\n'])).2⟩ := by
  have hloop := parseLoop_single files text ConfigParser.fresh c fuel hfuel hinc
  have hfresh : ({ TntconfigParser.fresh c with
      istreams := text :: (TntconfigParser.fresh c).istreams } : TntconfigParser)
        = ⟨ConfigParser.fresh, [text], c⟩ := rfl
  have hstate : (ConfigParser.feed ConfigParser.fresh (text ++ ['\n'])).1.state
      = ((ConfigParser.feed ConfigParser.fresh text).1.parse '\n').1.state := by
    rw [feed_append]
    rfl
  have hiff := parse_newline_state (ConfigParser.feed ConfigParser.fresh text).1
  rw [← hstate] at hiff
  by_cases hS : (ConfigParser.feed ConfigParser.fresh (text ++ ['\n'])).1.state = state_start
  · refine ⟨(⟨(ConfigParser.feed ConfigParser.fresh (text ++ ['\n'])).1, [],
      ⟨c.config_entries ++ (ConfigParser.feed ConfigParser.fresh (text ++ ['\n'])).2⟩⟩ :
      TntconfigParser), none, ?_, ?_, ?_, fun _ => hS, rfl⟩
    · simp only [TntconfigParser.parse, hfresh, hloop]
      simp [hS]
    · simp [hiff.mp hS]
    · simp [hiff.mp hS]
  · have hbad := not_not.mp (fun h => hS (hiff.mpr h))
    refine ⟨(⟨(ConfigParser.feed ConfigParser.fresh (text ++ ['\n'])).1, [],
      ⟨c.config_entries ++ (ConfigParser.feed ConfigParser.fresh (text ++ ['\n'])).2⟩⟩ :
      TntconfigParser), some "parse error while reading config", ?_, ?_, ?_,
      (fun h => Option.noConfusion h), rfl⟩
    · simp only [TntconfigParser.parse, hfresh, hloop]
      simp [hS]
    · simp [hbad]
    · simp [hbad]

/-- C12, evaluated on the code: the text `a b#x "u` holds no include directive
and is not malformed, its quote standing in a comment, yet `load` throws
"parse error while reading config": after the token `b` the `#` leads to
`state_cmd` instead of `state_comment`, so the comment is lexed as a line with
key `x` and an unclosed string.  With a space before the `#` the same text is
accepted.  Likewise `a b#include nosuchfile` holds no include directive and is
not malformed, yet `load` throws "cannot open include file nosuchfile", and is
accepted with a space before the `#`. -/
theorem C12_comment_after_token_is_parsed :
    Tntconfig.load (fun _ => none) 20 ⟨[]⟩ "a b#x \"u".data
      = some (⟨[⟨"a", ["b"]⟩]⟩, some "parse error while reading config") ∧
    Tntconfig.load (fun _ => none) 20 ⟨[]⟩ "a b #x \"u".data
      = some (⟨[⟨"a", ["b"]⟩]⟩, none) ∧
    Tntconfig.load (fun _ => none) 30 ⟨[]⟩ "a b#include nosuchfile".data
      = some (⟨[⟨"a", ["b"]⟩]⟩, some "cannot open include file nosuchfile") ∧
    Tntconfig.load (fun _ => none) 30 ⟨[]⟩ "a b #include nosuchfile".data
      = some (⟨[⟨"a", ["b"]⟩]⟩, none) ∧
    (ConfigParser.feed ConfigParser.fresh "a b#x \"u".data).1.state = state_qstring ∧
    (ConfigParser.feed ConfigParser.fresh "a b #x \"u".data).1.state = state_comment := by
  decide

/-! ## SslWrite writes all or throws -/

theorem SslWrite_writes_done (bufsize : Int) (rest : List Int) (st : SslState WritePc)
    (o : Outcome) (h : st.pc = .done o) : SslWrite.writes bufsize st rest = [] := by
  induction rest with
  | nil => rfl
  | cons r rest ih =>
    have hstep : SslWrite.step bufsize st r = st := by simp [SslWrite.step, h]
    simp only [SslWrite.writes, h, hstep, ih]

theorem SslWrite_progress (bufsize : Int) (rs : List Int) (st : SslState WritePc) (sent : Int)
    (hJ : st.pc.progress bufsize sent)
    (hle : ∀ w ∈ SslWrite.writes bufsize st rs, w.2.2 ≤ w.2.1) :
    suffixCalls bufsize sent (SslWrite.writes bufsize st rs) ∧
    (rs.foldl (SslWrite.step bufsize) st).pc.progress bufsize
      (sent + ((SslWrite.writes bufsize st rs).map written).sum) := by
  induction rs generalizing st sent with
  | nil => simpa [SslWrite.writes, suffixCalls] using hJ
  | cons r rest ih =>
    obtain ⟨pc, locked, trace⟩ := st
    cases pc with
    | write offset s =>
      obtain ⟨h1, h2, h3⟩ := hJ
      have hr : r ≤ s := hle (offset, s, r) (by simp [SslWrite.writes])
      have hrec := ih (SslWrite.step bufsize ⟨.write offset s, locked, trace⟩ r)
        (sent + written (offset, s, r))
        (by
          simp only [SslWrite.step, SslState.call, WritePc.progress, written]
          exact ⟨by rw [h1], by rw [h2, h1], h3, hr⟩)
        (fun w hw => hle w (by simp [SslWrite.writes]; exact Or.inr hw))
      simp only [SslWrite.writes, suffixCalls, List.foldl_cons, List.map_cons, List.sum_cons]
      exact ⟨⟨h1, h2, hrec.1⟩, by rw [← add_assoc]; exact hrec.2⟩
    | check n offset s =>
      obtain ⟨h1, h2, h3, h4⟩ := hJ
      have hrec := ih (SslWrite.step bufsize ⟨.check n offset s, locked, trace⟩ r) sent
        (by
          by_cases hr0 : r = 0
          · subst hr0
            by_cases hn : n > 0
            · by_cases hs : s - n ≤ 0
              · simp only [SslWrite.step, SslState.call, SslState.finish, hn, hs, if_true,
                  ne_eq, not_true_eq_false, if_false, WritePc.progress]
                simp only [hn, if_true] at h1
                exact ⟨trivial, by omega⟩
              · simp only [SslWrite.step, SslState.call, SslState.finish, hn, hs, if_true,
                  ne_eq, not_true_eq_false, if_false, WritePc.progress]
                simp only [hn, if_true] at h1
                exact ⟨h1, by omega, by omega⟩
            · have hs : ¬ s ≤ 0 := by omega
              simp only [SslWrite.step, SslState.call, SslState.finish, hn, hs, if_true,
                ne_eq, not_true_eq_false, if_false, WritePc.progress]
              simp only [hn, if_false] at h1
              exact ⟨by omega, by omega, by omega⟩
          · simp only [SslWrite.step, SslState.finish, ne_eq, hr0, not_false_eq_true, if_true,
              WritePc.progress])
        (fun w hw => hle w (by simpa [SslWrite.writes] using hw))
      simpa [SslWrite.writes] using hrec
    | events n offset s =>
      have hrec := ih (SslWrite.step bufsize ⟨.events n offset s, locked, trace⟩ r) sent
        (by simpa [SslWrite.step, SslState.call, WritePc.progress] using hJ)
        (fun w hw => hle w (by simpa [SslWrite.writes] using hw))
      simpa [SslWrite.writes] using hrec
    | poll offset s =>
      have hrec := ih (SslWrite.step bufsize ⟨.poll offset s, locked, trace⟩ r) sent
        (by
          simp only [SslWrite.step, SslState.call, SslState.finish]
          split
          · trivial
          · split
            · trivial
            · exact hJ)
        (fun w hw => hle w (by simpa [SslWrite.writes] using hw))
      simpa [SslWrite.writes] using hrec
    | done o =>
      have h1 := SslWrite_writes_done bufsize (r :: rest) ⟨.done o, locked, trace⟩ o rfl
      have h2 := SslWrite_foldl_done bufsize (r :: rest) ⟨.done o, locked, trace⟩ o rfl
      rw [h1, h2]
      simpa [suffixCalls] using hJ

theorem SslWrite_trace_writes (bufsize : Int) (rs : List Int) (st : SslState WritePc)
    (pre : List (Int × Int × Int))
    (h : st.trace.filterMap Event.writeArgs
      = pre.map (fun w => (w.1, w.2.1)) ++ st.pc.pendingWrite) :
    (rs.foldl (SslWrite.step bufsize) st).trace.filterMap Event.writeArgs
      = (pre ++ SslWrite.writes bufsize st rs).map (fun w => (w.1, w.2.1))
        ++ (rs.foldl (SslWrite.step bufsize) st).pc.pendingWrite := by
  induction rs generalizing st pre with
  | nil => simpa [SslWrite.writes] using h
  | cons r rest ih =>
    obtain ⟨pc, locked, trace⟩ := st
    cases pc with
    | write offset s =>
      have hrec := ih (SslWrite.step bufsize ⟨.write offset s, locked, trace⟩ r)
        (pre ++ [(offset, s, r)])
        (by simpa [SslWrite.step, SslState.call, WritePc.pendingWrite, Event.writeArgs] using h)
      simpa [SslWrite.writes] using hrec
    | check n offset s =>
      have hrec := ih (SslWrite.step bufsize ⟨.check n offset s, locked, trace⟩ r) pre
        (by
          simp only [SslWrite.step, SslState.call, SslState.finish]
          (repeat' split) <;> simpa [WritePc.pendingWrite, Event.writeArgs] using h)
      simpa [SslWrite.writes] using hrec
    | events n offset s =>
      have hrec := ih (SslWrite.step bufsize ⟨.events n offset s, locked, trace⟩ r) pre
        (by simpa [SslWrite.step, SslState.call, WritePc.pendingWrite, Event.writeArgs] using h)
      simpa [SslWrite.writes] using hrec
    | poll offset s =>
      have hrec := ih (SslWrite.step bufsize ⟨.poll offset s, locked, trace⟩ r) pre
        (by
          simp only [SslWrite.step, SslState.call, SslState.finish]
          (repeat' split) <;> simpa [WritePc.pendingWrite, Event.writeArgs] using h)
      simpa [SslWrite.writes] using hrec
    | done o =>
      have h1 := SslWrite_writes_done bufsize (r :: rest) ⟨.done o, locked, trace⟩ o rfl
      have h2 := SslWrite_foldl_done bufsize (r :: rest) ⟨.done o, locked, trace⟩ o rfl
      rw [h1, h2]
      simpa using h

theorem stall_step (tr : List Event) (rest : List Int) :
    (0 :: 0 :: 0 :: 1 :: rest).foldl (SslWrite.step 10) ⟨.write 0 10, true, tr⟩
      = rest.foldl (SslWrite.step 10)
          ⟨.write 0 10, true,
            tr ++ [⟨.ERR_get_error, true⟩, ⟨.SSL_get_error, true⟩, ⟨.poll false true, false⟩,
              ⟨.SSL_write 0 10, true⟩]⟩ := by
  simp [SslWrite.step, SslState.call, SslState.finish, SSL_ERROR_WANT_READ]

theorem stall_pc (k : Nat) (tr : List Event) :
    ((stallResults k).foldl (SslWrite.step 10) ⟨.write 0 10, true, tr⟩).pc = .write 0 10 := by
  induction k generalizing tr with
  | zero => rfl
  | succ k ih =>
    simp only [stallResults]
    rw [stall_step, ih]

theorem stall_writes (k : Nat) (tr : List Event) :
    ∀ w ∈ SslWrite.writes 10 ⟨.write 0 10, true, tr⟩ (stallResults k), w = (0, 10, 0) := by
  induction k generalizing tr with
  | zero => intro w hw; cases hw
  | succ k ih =>
    intro w hw
    simp only [stallResults, SslWrite.writes, SslWrite.step, SslState.call, SslState.finish,
      List.mem_cons] at hw
    rcases hw with hw | hw
    · exact hw
    · simp at hw
      exact ih _ w hw

/-- C16, refuted as stated: with `bufsize = 10`, let every `SSL_write` return 0
(no more than the 10 bytes it is given) with no error queued and every `poll`
return 1.  After any number `k` of such rounds `SslWrite` has neither thrown
nor returned: it is about to call `SSL_write` on the whole buffer again. -/
theorem C16_counterexample :
    (0 : Int) < 10 ∧
    (∀ k, ∀ w ∈ SslWrite.writes 10 (SslWrite.start 10) (stallResults k), w.2.2 ≤ w.2.1) ∧
    (∀ k, (SslWrite 10 (stallResults k)).pc = .write 0 10) ∧
    (∀ k o, (SslWrite 10 (stallResults k)).pc ≠ .done o) := by
  have hpc : ∀ k, (SslWrite 10 (stallResults k)).pc = .write 0 10 := by
    intro k
    simp only [SslWrite, SslWrite.start, SslState.call]
    exact stall_pc k _
  refine ⟨by decide, ?_, hpc, ?_⟩
  · intro k w hw
    simp only [SslWrite.start, SslState.call] at hw
    rw [stall_writes k _ w hw]
    decide
  · intro k o h
    rw [hpc k] at h
    cases h

/-- C16, amended: for every `bufsize > 0` and every sequence of results of the
external calls in which no `SSL_write` returns more than the length it was
given, whenever `SslWrite` ends it either throws or returns exactly `bufsize`,
and when it returns the positive results of its `SSL_write` calls sum to
`bufsize`; every `SSL_write` call answered was given the offset reached by the
bytes accepted before it and the remaining length, and these are the arguments
of the `SSL_write` calls in the trace (the last one may still wait for its
result).  A first `SSL_write` that accepts the whole buffer makes `SslWrite`
return. -/
theorem C16_write_all_or_error (bufsize : Int) (results rest : List Int) (hpos : 0 < bufsize)
    (hle : ∀ w ∈ SslWrite.writes bufsize (SslWrite.start bufsize) results, w.2.2 ≤ w.2.1) :
    (∀ o, (SslWrite bufsize results).pc = .done o →
      o = .returned bufsize ∨ o = .Timeout ∨ o = .Exception ∨ ∃ code, o = .SslException code) ∧
    (∀ n, (SslWrite bufsize results).pc = .done (.returned n) →
      n = bufsize ∧
      ((SslWrite.writes bufsize (SslWrite.start bufsize) results).map written).sum = bufsize) ∧
    suffixCalls bufsize 0 (SslWrite.writes bufsize (SslWrite.start bufsize) results) ∧
    (SslWrite bufsize results).trace.filterMap Event.writeArgs
      = (SslWrite.writes bufsize (SslWrite.start bufsize) results).map (fun w => (w.1, w.2.1))
        ++ (SslWrite bufsize results).pc.pendingWrite ∧
    (SslWrite bufsize (bufsize :: 0 :: rest)).pc = .done (.returned bufsize) := by
  have h := SslWrite_progress bufsize results (SslWrite.start bufsize) 0
    (by
      simp only [SslWrite.start, SslState.call, WritePc.progress]
      exact ⟨trivial, by omega, hpos⟩)
    hle
  have ht := SslWrite_trace_writes bufsize results (SslWrite.start bufsize) [] (by
    simp [SslWrite.start, SslState.call, WritePc.pendingWrite, Event.writeArgs])
  have hret : ∀ n, (SslWrite bufsize results).pc = .done (.returned n) →
      n = bufsize ∧
      ((SslWrite.writes bufsize (SslWrite.start bufsize) results).map written).sum
        = bufsize := by
    intro n hn
    have h2 := h.2
    simp only [SslWrite] at hn
    rw [hn] at h2
    simp only [WritePc.progress, zero_add] at h2
    exact h2
  refine ⟨?_, hret, h.1, by simpa [SslWrite] using ht, ?_⟩
  · intro o ho
    cases o with
    | returned n => exact Or.inl (by rw [(hret n ho).1])
    | Timeout => exact Or.inr (Or.inl rfl)
    | Exception => exact Or.inr (Or.inr (Or.inl rfl))
    | SslException code => exact Or.inr (Or.inr (Or.inr ⟨code, rfl⟩))
  · have hs : bufsize - bufsize ≤ 0 := by omega
    simp only [SslWrite, List.foldl_cons]
    rw [SslWrite_foldl_done bufsize rest _ (.returned bufsize)]
    · simp [SslWrite.step, SslWrite.start, SslState.call, SslState.finish, hpos]
    · simp [SslWrite.step, SslWrite.start, SslState.call, SslState.finish, hpos]

/-- C16, evaluated: ten bytes written in two calls of five, with a poll in
between: `SslWrite` returns 10, the results sum to 10, and the second call is
given offset 5 and length 5. -/
theorem C16_write_all_or_error_witness :
    (SslWrite 10 [5, 0, 0, 1, 5, 0]).pc = .done (.returned 10) ∧
    SslWrite.writes 10 (SslWrite.start 10) [5, 0, 0, 1, 5, 0] = [(0, 10, 5), (5, 5, 5)] ∧
    ((SslWrite.writes 10 (SslWrite.start 10) [5, 0, 0, 1, 5, 0]).map written).sum = 10 ∧
    suffixCalls 10 0 (SslWrite.writes 10 (SslWrite.start 10) [5, 0, 0, 1, 5, 0]) :=
  ⟨by decide, by decide,
   ((C16_write_all_or_error 10 [5, 0, 0, 1, 5, 0] [] (by decide) (by decide)).2.1 10
      (by decide)).2,
   (C16_write_all_or_error 10 [5, 0, 0, 1, 5, 0] [] (by decide) (by decide)).2.2.1⟩

end Tnt
